import Mathlib

/-!
Verification of the `control_calidad` module of the `crud_clase` Django
repository (quality-control batch tracking and the PDF report pipeline).

The development shallowly embeds, faithfully to the Python source:
  * `control_calidad/models.py`   — `LoteProcesado` and its `save` derivation,
  * `control_calidad/serializers.py` — `LoteProcesadoSerializer` validation,
  * `control_calidad/utils.py`    — PDF generation, Fernet encryption keyed by
    SHA-256 of the client identifier, and email dispatch,
  * `control_calidad/views.py`    — the CRUD and report-dispatch endpoints.

Library primitives the source delegates to (`hashlib.sha256`,
`base64.urlsafe_b64encode/decode`, `cryptography.fernet.Fernet`, which is
AES-128-CBC with PKCS#7 padding authenticated by HMAC-SHA256) are embedded as
executable Lean functions following their published specifications, so that
the round-trip and key-derivation claims are proved against real algorithms
rather than stubs.

Machine integers are `Nat` with explicit reduction modulo `2^32` (SHA-256
words) or `256` (bytes); `Decimal` percentage fields are embedded as `Rat`
(the source's `Decimal` arithmetic on two-decimal-place percentages is exact).
-/

set_option maxRecDepth 16384

namespace CrudClase

/-! ## Bytes and UTF-8 encoding (`str.encode('utf-8')`) -/

/-- A byte list is valid when every entry is below 256. -/
def ValidBytes (l : List Nat) : Prop := ∀ b ∈ l, b < 256

instance : DecidablePred ValidBytes := fun l =>
  inferInstanceAs (Decidable (∀ b ∈ l, b < 256))

/-- UTF-8 encoding of a single character (the standard 1–4 byte scheme used by
Python's `str.encode('utf-8')`). -/
def utf8Char (c : Char) : List Nat :=
  let n := c.toNat
  if n < 128 then [n]
  else if n < 2048 then [192 + n / 64, 128 + n % 64]
  else if n < 65536 then [224 + n / 4096, 128 + (n / 64) % 64, 128 + n % 64]
  else [240 + n / 262144, 128 + (n / 4096) % 64, 128 + (n / 64) % 64, 128 + n % 64]

/-- UTF-8 encoding of a string as a byte list. -/
def utf8Encode (s : String) : List Nat := s.data.flatMap utf8Char

theorem utf8Char_valid (c : Char) : ValidBytes (utf8Char c) := by
  have hv : c.toNat < 1114112 := by
    have h := c.valid
    have he : c.toNat = c.val.toNat := rfl
    rcases h with h | h <;> omega
  intro b hb
  unfold utf8Char at hb
  by_cases h1 : c.toNat < 128
  · simp [h1] at hb; omega
  · by_cases h2 : c.toNat < 2048
    · simp [h1, h2] at hb
      rcases hb with hb | hb
      · have : c.toNat / 64 < 32 := by omega
        omega
      · have : c.toNat % 64 < 64 := Nat.mod_lt _ (by norm_num)
        omega
    · by_cases h3 : c.toNat < 65536
      · simp [h1, h2, h3] at hb
        rcases hb with hb | hb | hb
        · have : c.toNat / 4096 < 16 := by omega
          omega
        · have : (c.toNat / 64) % 64 < 64 := Nat.mod_lt _ (by norm_num)
          omega
        · have : c.toNat % 64 < 64 := Nat.mod_lt _ (by norm_num)
          omega
      · simp [h1, h2, h3] at hb
        rcases hb with hb | hb | hb | hb
        · have : c.toNat / 262144 < 5 := by omega
          omega
        · have : (c.toNat / 4096) % 64 < 64 := Nat.mod_lt _ (by norm_num)
          omega
        · have : (c.toNat / 64) % 64 < 64 := Nat.mod_lt _ (by norm_num)
          omega
        · have : c.toNat % 64 < 64 := Nat.mod_lt _ (by norm_num)
          omega

theorem utf8Encode_valid (s : String) : ValidBytes (utf8Encode s) := by
  intro b hb
  unfold utf8Encode at hb
  rcases List.mem_flatMap.mp hb with ⟨c, _, hc⟩
  exact utf8Char_valid c b hc

/-! ## SHA-256 (`hashlib.sha256`), per FIPS 180-4 -/

/-- Reduction modulo `2^32` (32-bit word wraparound). -/
def w32 (x : Nat) : Nat := x % 4294967296

/-- 32-bit right rotation. -/
def rotr (n x : Nat) : Nat := (x >>> n) ||| w32 (x <<< (32 - n))

def bsig0 (x : Nat) : Nat := rotr 2 x ^^^ rotr 13 x ^^^ rotr 22 x
def bsig1 (x : Nat) : Nat := rotr 6 x ^^^ rotr 11 x ^^^ rotr 25 x
def ssig0 (x : Nat) : Nat := rotr 7 x ^^^ rotr 18 x ^^^ (x >>> 3)
def ssig1 (x : Nat) : Nat := rotr 17 x ^^^ rotr 19 x ^^^ (x >>> 10)
def chf (x y z : Nat) : Nat := (x &&& y) ^^^ ((x ^^^ 4294967295) &&& z)
def majf (x y z : Nat) : Nat := (x &&& y) ^^^ (x &&& z) ^^^ (y &&& z)

/-- The 64 SHA-256 round constants. -/
def sha256K : List Nat :=
  [1116352408, 1899447441, 3049323471, 3921009573, 961987163, 1508970993,
   2453635748, 2870763221, 3624381080, 310598401, 607225278, 1426881987,
   1925078388, 2162078206, 2614888103, 3248222580, 3835390401, 4022224774,
   264347078, 604807628, 770255983, 1249150122, 1555081692, 1996064986,
   2554220882, 2821834349, 2952996808, 3210313671, 3336571891, 3584528711,
   113926993, 338241895, 666307205, 773529912, 1294757372, 1396182291,
   1695183700, 1986661051, 2177026350, 2456956037, 2730485921, 2820302411,
   3259730800, 3345764771, 3516065817, 3600352804, 4094571909, 275423344,
   430227734, 506948616, 659060556, 883997877, 958139571, 1322822218,
   1537002063, 1747873779, 1955562222, 2024104815, 2227730452, 2361852424,
   2428436474, 2756734187, 3204031479, 3329325298]

/-- Big-endian byte serialisation of `v` into `k` bytes. -/
def natToBytesBE : Nat → Nat → List Nat
  | 0, _ => []
  | k + 1, v => natToBytesBE k (v / 256) ++ [v % 256]

theorem natToBytesBE_length (k v : Nat) : (natToBytesBE k v).length = k := by
  induction k generalizing v with
  | zero => rfl
  | succ n ih => simp [natToBytesBE, ih]

theorem natToBytesBE_valid (k v : Nat) : ValidBytes (natToBytesBE k v) := by
  induction k generalizing v with
  | zero => intro b hb; simp [natToBytesBE] at hb
  | succ n ih =>
      intro b hb
      simp only [natToBytesBE, List.mem_append, List.mem_singleton] at hb
      rcases hb with hb | hb
      · exact ih _ b hb
      · subst hb; exact Nat.mod_lt _ (by norm_num)

/-- SHA-256 message padding: append `0x80`, zeros to 56 mod 64, then the
bit length as 8 big-endian bytes. -/
def sha256Pad (m : List Nat) : List Nat :=
  m ++ [128] ++ List.replicate ((119 - m.length % 64) % 64) 0
    ++ natToBytesBE 8 ((8 * m.length) % 18446744073709551616)

/-- Split a byte list into 64-byte chunks. -/
def chunks64 (l : List Nat) : List (List Nat) :=
  if h : l = [] then []
  else (l.take 64) :: chunks64 (l.drop 64)
termination_by l.length
decreasing_by
  simp only [List.length_drop]
  have : 0 < l.length := List.length_pos.mpr h
  omega

/-- Big-endian 32-bit words from a byte list. -/
def bytesToWordsBE : List Nat → List Nat
  | b0 :: b1 :: b2 :: b3 :: rest =>
      (((b0 * 256 + b1) * 256 + b2) * 256 + b3) :: bytesToWordsBE rest
  | _ => []

/-- Extend the 16-word schedule by `n` further words. -/
def sha256Extend : Nat → List Nat → List Nat
  | 0, w => w
  | n + 1, w =>
      let i := w.length
      let nw := w32 (ssig1 (w.getD (i - 2) 0) + w.getD (i - 7) 0
        + ssig0 (w.getD (i - 15) 0) + w.getD (i - 16) 0)
      sha256Extend n (w ++ [nw])

/-- The eight 32-bit working variables of the SHA-256 compression loop. -/
structure SHAState where
  a : Nat
  b : Nat
  c : Nat
  d : Nat
  e : Nat
  f : Nat
  g : Nat
  h : Nat

/-- One round of the SHA-256 compression function. -/
def sha256Round (s : SHAState) (kw : Nat × Nat) : SHAState :=
  let t1 := w32 (s.h + bsig1 s.e + chf s.e s.f s.g + kw.1 + kw.2)
  let t2 := w32 (bsig0 s.a + majf s.a s.b s.c)
  ⟨w32 (t1 + t2), s.a, s.b, s.c, w32 (s.d + t1), s.e, s.f, s.g⟩

/-- Compress one 64-byte chunk into the running hash state. -/
def sha256Compress (hs : SHAState) (chunk : List Nat) : SHAState :=
  let ws := sha256Extend 48 (bytesToWordsBE chunk)
  let s := (sha256K.zip ws).foldl sha256Round hs
  ⟨w32 (hs.a + s.a), w32 (hs.b + s.b), w32 (hs.c + s.c), w32 (hs.d + s.d),
   w32 (hs.e + s.e), w32 (hs.f + s.f), w32 (hs.g + s.g), w32 (hs.h + s.h)⟩

/-- The SHA-256 initial hash state. -/
def sha256Init : SHAState :=
  ⟨1779033703, 3144134277, 1013904242, 2773480762,
   1359893119, 2600822924, 528734635, 1541459225⟩

/-- SHA-256 digest (32 bytes) of a byte list. -/
def sha256 (m : List Nat) : List Nat :=
  let s := (chunks64 (sha256Pad m)).foldl sha256Compress sha256Init
  natToBytesBE 4 s.a ++ natToBytesBE 4 s.b ++ natToBytesBE 4 s.c
    ++ natToBytesBE 4 s.d ++ natToBytesBE 4 s.e ++ natToBytesBE 4 s.f
    ++ natToBytesBE 4 s.g ++ natToBytesBE 4 s.h

theorem sha256_length (m : List Nat) : (sha256 m).length = 32 := by
  simp [sha256, natToBytesBE_length]

theorem sha256_valid (m : List Nat) : ValidBytes (sha256 m) := by
  intro b hb
  simp only [sha256, List.mem_append] at hb
  rcases hb with ((((((hb | hb) | hb) | hb) | hb) | hb) | hb) | hb <;>
    exact natToBytesBE_valid 4 _ b hb

/-! ## URL-safe base64 (`base64.urlsafe_b64encode` / `urlsafe_b64decode`) -/

/-- The URL-safe base64 alphabet (`A–Z a–z 0–9 - _`) as ASCII codes. -/
def b64Table : List Nat :=
  [65, 66, 67, 68, 69, 70, 71, 72, 73, 74, 75, 76, 77, 78, 79, 80, 81, 82,
   83, 84, 85, 86, 87, 88, 89, 90,
   97, 98, 99, 100, 101, 102, 103, 104, 105, 106, 107, 108, 109, 110, 111,
   112, 113, 114, 115, 116, 117, 118, 119, 120, 121, 122,
   48, 49, 50, 51, 52, 53, 54, 55, 56, 57, 45, 95]

/-- Encode a 6-bit value as its base64 alphabet byte. -/
def b64enc (v : Nat) : Nat := b64Table.getD v 0

/-- Decode a base64 alphabet byte back to its 6-bit value. -/
def b64dec (c : Nat) : Option Nat := (List.range 64).find? (fun v => b64enc v = c)

/-- `base64.urlsafe_b64encode`: three input bytes become four alphabet bytes,
with `=` (61) padding for a 1- or 2-byte tail. -/
def urlsafe_b64encode : List Nat → List Nat
  | [] => []
  | [a] => [b64enc (a / 4), b64enc (a % 4 * 16), 61, 61]
  | [a, b] => [b64enc (a / 4), b64enc (a % 4 * 16 + b / 16), b64enc (b % 16 * 4), 61]
  | a :: b :: c :: rest =>
      b64enc (a / 4) :: b64enc (a % 4 * 16 + b / 16)
        :: b64enc (b % 16 * 4 + c / 64) :: b64enc (c % 64)
        :: urlsafe_b64encode rest

/-- `base64.urlsafe_b64decode`: groups of four alphabet bytes become three
bytes; a group ending in `=` padding closes the stream. -/
def urlsafe_b64decode : List Nat → Option (List Nat)
  | a :: b :: c :: d :: rest => do
      let va ← b64dec a
      let vb ← b64dec b
      if c = 61 ∧ d = 61 ∧ rest = [] then
        pure [va * 4 + vb / 16]
      else if d = 61 ∧ rest = [] then do
        let vc ← b64dec c
        pure [va * 4 + vb / 16, vb % 16 * 16 + vc / 4]
      else do
        let vc ← b64dec c
        let vd ← b64dec d
        let tail ← urlsafe_b64decode rest
        pure ((va * 4 + vb / 16) :: (vb % 16 * 16 + vc / 4) :: (vc % 4 * 64 + vd) :: tail)
  | [] => some []
  | _ => none

theorem b64dec_enc {v : Nat} (h : v < 64) : b64dec (b64enc v) = some v := by
  interval_cases v <;> rfl

theorem b64enc_ne_61 {v : Nat} (h : v < 64) : b64enc v ≠ 61 := by
  interval_cases v <;> simp [b64enc, b64Table]

/-- Decoding inverts encoding on any valid byte list. -/
theorem urlsafe_b64decode_encode (l : List Nat) (hl : ValidBytes l) :
    urlsafe_b64decode (urlsafe_b64encode l) = some l := by
  induction l using urlsafe_b64encode.induct with
  | case1 => rfl
  | case2 a =>
      have ha : a < 256 := hl a (by simp)
      have h1 : a / 4 < 64 := by omega
      have h2 : a % 4 * 16 < 64 := by omega
      simp [urlsafe_b64encode, urlsafe_b64decode, b64dec_enc h1, b64dec_enc h2]
      omega
  | case3 a b =>
      have ha : a < 256 := hl a (by simp)
      have hb : b < 256 := hl b (by simp)
      have h1 : a / 4 < 64 := by omega
      have h2 : a % 4 * 16 + b / 16 < 64 := by omega
      have h3 : b % 16 * 4 < 64 := by omega
      simp [urlsafe_b64encode, urlsafe_b64decode, b64dec_enc h1, b64dec_enc h2,
        b64dec_enc h3, b64enc_ne_61 h3]
      exact ⟨by omega, by omega⟩
  | case4 a b c rest ih =>
      have ha : a < 256 := hl a (by simp)
      have hb : b < 256 := hl b (by simp)
      have hc : c < 256 := hl c (by simp)
      have hrest : ValidBytes rest := fun x hx => hl x (by simp [hx])
      have h1 : a / 4 < 64 := by omega
      have h2 : a % 4 * 16 + b / 16 < 64 := by omega
      have h3 : b % 16 * 4 + c / 64 < 64 := by omega
      have h4 : c % 64 < 64 := by omega
      simp [urlsafe_b64encode, urlsafe_b64decode, b64dec_enc h1, b64dec_enc h2,
        b64dec_enc h3, b64dec_enc h4, b64enc_ne_61 h3, b64enc_ne_61 h4, ih hrest]
      exact ⟨by omega, by omega, by omega⟩

/-! ## HMAC-SHA256 (RFC 2104), the authentication layer of Fernet -/

/-- HMAC-SHA256 of `msg` under `key`. -/
def hmacSha256 (key msg : List Nat) : List Nat :=
  let k0 := if 64 < key.length then sha256 key else key
  let kp := k0 ++ List.replicate (64 - k0.length) 0
  sha256 ((kp.map (fun b => b ^^^ 92)) ++ sha256 ((kp.map (fun b => b ^^^ 54)) ++ msg))

theorem hmacSha256_length (key msg : List Nat) : (hmacSha256 key msg).length = 32 :=
  sha256_length _

/-! ## AES-128 (FIPS 197), the cipher layer of Fernet -/

/-- The AES S-box. -/
def sboxT : List Nat :=
  [99, 124, 119, 123, 242, 107, 111, 197, 48, 1, 103, 43, 254, 215, 171,
   118, 202, 130, 201, 125, 250, 89, 71, 240, 173, 212, 162, 175, 156, 164,
   114, 192, 183, 253, 147, 38, 54, 63, 247, 204, 52, 165, 229, 241, 113,
   216, 49, 21, 4, 199, 35, 195, 24, 150, 5, 154, 7, 18, 128, 226, 235, 39,
   178, 117, 9, 131, 44, 26, 27, 110, 90, 160, 82, 59, 214, 179, 41, 227,
   47, 132, 83, 209, 0, 237, 32, 252, 177, 91, 106, 203, 190, 57, 74, 76,
   88, 207, 208, 239, 170, 251, 67, 77, 51, 133, 69, 249, 2, 127, 80, 60,
   159, 168, 81, 163, 64, 143, 146, 157, 56, 245, 188, 182, 218, 33, 16,
   255, 243, 210, 205, 12, 19, 236, 95, 151, 68, 23, 196, 167, 126, 61,
   100, 93, 25, 115, 96, 129, 79, 220, 34, 42, 144, 136, 70, 238, 184, 20,
   222, 94, 11, 219, 224, 50, 58, 10, 73, 6, 36, 92, 194, 211, 172, 98,
   145, 149, 228, 121, 231, 200, 55, 109, 141, 213, 78, 169, 108, 86, 244,
   234, 101, 122, 174, 8, 186, 120, 37, 46, 28, 166, 180, 198, 232, 221,
   116, 31, 75, 189, 139, 138, 112, 62, 181, 102, 72, 3, 246, 14, 97, 53,
   87, 185, 134, 193, 29, 158, 225, 248, 152, 17, 105, 217, 142, 148, 155,
   30, 135, 233, 206, 85, 40, 223, 140, 161, 137, 13, 191, 230, 66, 104,
   65, 153, 45, 15, 176, 84, 187, 22]

/-- The inverse AES S-box. -/
def invSboxT : List Nat :=
  [82, 9, 106, 213, 48, 54, 165, 56, 191, 64, 163, 158, 129, 243, 215, 251,
   124, 227, 57, 130, 155, 47, 255, 135, 52, 142, 67, 68, 196, 222, 233,
   203, 84, 123, 148, 50, 166, 194, 35, 61, 238, 76, 149, 11, 66, 250, 195,
   78, 8, 46, 161, 102, 40, 217, 36, 178, 118, 91, 162, 73, 109, 139, 209,
   37, 114, 248, 246, 100, 134, 104, 152, 22, 212, 164, 92, 204, 93, 101,
   182, 146, 108, 112, 72, 80, 253, 237, 185, 218, 94, 21, 70, 87, 167,
   141, 157, 132, 144, 216, 171, 0, 140, 188, 211, 10, 247, 228, 88, 5,
   184, 179, 69, 6, 208, 44, 30, 143, 202, 63, 15, 2, 193, 175, 189, 3, 1,
   19, 138, 107, 58, 145, 17, 65, 79, 103, 220, 234, 151, 242, 207, 206,
   240, 180, 230, 115, 150, 172, 116, 34, 231, 173, 53, 133, 226, 249, 55,
   232, 28, 117, 223, 110, 71, 241, 26, 113, 29, 41, 197, 137, 111, 183,
   98, 14, 170, 24, 190, 27, 252, 86, 62, 75, 198, 210, 121, 32, 154, 219,
   192, 254, 120, 205, 90, 244, 31, 221, 168, 51, 136, 7, 199, 49, 177, 18,
   16, 89, 39, 128, 236, 95, 96, 81, 127, 169, 25, 181, 74, 13, 45, 229,
   122, 159, 147, 201, 156, 239, 160, 224, 59, 77, 174, 42, 245, 176, 200,
   235, 187, 60, 131, 83, 153, 97, 23, 43, 4, 126, 186, 119, 214, 38, 225,
   105, 20, 99, 85, 33, 12, 125]

def sbox (b : Nat) : Nat := sboxT.getD b 0

def invSbox (b : Nat) : Nat := invSboxT.getD b 0

/-- Multiplication by `x` in GF(2^8) modulo the AES polynomial `0x11B`. -/
def xt (x : Nat) : Nat := (2 * x) ^^^ (if 128 ≤ x then 283 else 0)

/-- GF(2^8) multiplication by the fixed InvMixColumns coefficients. -/
def mul3 (x : Nat) : Nat := xt x ^^^ x
def mul9 (x : Nat) : Nat := xt (xt (xt x)) ^^^ x
def mul11 (x : Nat) : Nat := xt (xt (xt x)) ^^^ xt x ^^^ x
def mul13 (x : Nat) : Nat := xt (xt (xt x)) ^^^ xt (xt x) ^^^ x
def mul14 (x : Nat) : Nat := xt (xt (xt x)) ^^^ xt (xt x) ^^^ xt x

/-- MixColumns on one column. -/
def mixCol : Nat × Nat × Nat × Nat → Nat × Nat × Nat × Nat
  | (a0, a1, a2, a3) =>
    (xt a0 ^^^ mul3 a1 ^^^ a2 ^^^ a3,
     a0 ^^^ xt a1 ^^^ mul3 a2 ^^^ a3,
     a0 ^^^ a1 ^^^ xt a2 ^^^ mul3 a3,
     mul3 a0 ^^^ a1 ^^^ a2 ^^^ xt a3)

/-- InvMixColumns on one column. -/
def invMixCol : Nat × Nat × Nat × Nat → Nat × Nat × Nat × Nat
  | (b0, b1, b2, b3) =>
    (mul14 b0 ^^^ mul11 b1 ^^^ mul13 b2 ^^^ mul9 b3,
     mul9 b0 ^^^ mul14 b1 ^^^ mul11 b2 ^^^ mul13 b3,
     mul13 b0 ^^^ mul9 b1 ^^^ mul14 b2 ^^^ mul11 b3,
     mul11 b0 ^^^ mul13 b1 ^^^ mul9 b2 ^^^ mul14 b3)

/-- An AES state: the 16 bytes of a block in input (column-major) order;
byte at row `r`, column `c` is field `i(4c+r)`. -/
@[ext] structure AESState where
  i0 : Nat
  i1 : Nat
  i2 : Nat
  i3 : Nat
  i4 : Nat
  i5 : Nat
  i6 : Nat
  i7 : Nat
  i8 : Nat
  i9 : Nat
  i10 : Nat
  i11 : Nat
  i12 : Nat
  i13 : Nat
  i14 : Nat
  i15 : Nat

/-- All 16 state bytes are below 256. -/
def AESState.Bounded (s : AESState) : Prop :=
  s.i0 < 256 ∧ s.i1 < 256 ∧ s.i2 < 256 ∧ s.i3 < 256 ∧
  s.i4 < 256 ∧ s.i5 < 256 ∧ s.i6 < 256 ∧ s.i7 < 256 ∧
  s.i8 < 256 ∧ s.i9 < 256 ∧ s.i10 < 256 ∧ s.i11 < 256 ∧
  s.i12 < 256 ∧ s.i13 < 256 ∧ s.i14 < 256 ∧ s.i15 < 256

def subBytes (s : AESState) : AESState :=
  ⟨sbox s.i0, sbox s.i1, sbox s.i2, sbox s.i3, sbox s.i4, sbox s.i5,
   sbox s.i6, sbox s.i7, sbox s.i8, sbox s.i9, sbox s.i10, sbox s.i11,
   sbox s.i12, sbox s.i13, sbox s.i14, sbox s.i15⟩

def invSubBytes (s : AESState) : AESState :=
  ⟨invSbox s.i0, invSbox s.i1, invSbox s.i2, invSbox s.i3, invSbox s.i4,
   invSbox s.i5, invSbox s.i6, invSbox s.i7, invSbox s.i8, invSbox s.i9,
   invSbox s.i10, invSbox s.i11, invSbox s.i12, invSbox s.i13,
   invSbox s.i14, invSbox s.i15⟩

/-- ShiftRows: row `r` rotates left by `r`. -/
def shiftRows (s : AESState) : AESState :=
  ⟨s.i0, s.i5, s.i10, s.i15,
   s.i4, s.i9, s.i14, s.i3,
   s.i8, s.i13, s.i2, s.i7,
   s.i12, s.i1, s.i6, s.i11⟩

/-- InvShiftRows: row `r` rotates right by `r`. -/
def invShiftRows (s : AESState) : AESState :=
  ⟨s.i0, s.i13, s.i10, s.i7,
   s.i4, s.i1, s.i14, s.i11,
   s.i8, s.i5, s.i2, s.i15,
   s.i12, s.i9, s.i6, s.i3⟩

def mixColumns (s : AESState) : AESState :=
  let c0 := mixCol (s.i0, s.i1, s.i2, s.i3)
  let c1 := mixCol (s.i4, s.i5, s.i6, s.i7)
  let c2 := mixCol (s.i8, s.i9, s.i10, s.i11)
  let c3 := mixCol (s.i12, s.i13, s.i14, s.i15)
  ⟨c0.1, c0.2.1, c0.2.2.1, c0.2.2.2, c1.1, c1.2.1, c1.2.2.1, c1.2.2.2,
   c2.1, c2.2.1, c2.2.2.1, c2.2.2.2, c3.1, c3.2.1, c3.2.2.1, c3.2.2.2⟩

def invMixColumns (s : AESState) : AESState :=
  let c0 := invMixCol (s.i0, s.i1, s.i2, s.i3)
  let c1 := invMixCol (s.i4, s.i5, s.i6, s.i7)
  let c2 := invMixCol (s.i8, s.i9, s.i10, s.i11)
  let c3 := invMixCol (s.i12, s.i13, s.i14, s.i15)
  ⟨c0.1, c0.2.1, c0.2.2.1, c0.2.2.2, c1.1, c1.2.1, c1.2.2.1, c1.2.2.2,
   c2.1, c2.2.1, c2.2.2.1, c2.2.2.2, c3.1, c3.2.1, c3.2.2.1, c3.2.2.2⟩

/-- AddRoundKey: XOR the state with a round key. -/
def ark (s k : AESState) : AESState :=
  ⟨s.i0 ^^^ k.i0, s.i1 ^^^ k.i1, s.i2 ^^^ k.i2, s.i3 ^^^ k.i3,
   s.i4 ^^^ k.i4, s.i5 ^^^ k.i5, s.i6 ^^^ k.i6, s.i7 ^^^ k.i7,
   s.i8 ^^^ k.i8, s.i9 ^^^ k.i9, s.i10 ^^^ k.i10, s.i11 ^^^ k.i11,
   s.i12 ^^^ k.i12, s.i13 ^^^ k.i13, s.i14 ^^^ k.i14, s.i15 ^^^ k.i15⟩

/-- One AES-128 key-schedule step: from round key `k` and round constant
`rc`, the next round key (FIPS 197 §5.2). -/
def nextRoundKey (k : AESState) (rc : Nat) : AESState :=
  let t0 := sbox k.i13 ^^^ rc
  let t1 := sbox k.i14
  let t2 := sbox k.i15
  let t3 := sbox k.i12
  let w00 := k.i0 ^^^ t0
  let w01 := k.i1 ^^^ t1
  let w02 := k.i2 ^^^ t2
  let w03 := k.i3 ^^^ t3
  let w10 := k.i4 ^^^ w00
  let w11 := k.i5 ^^^ w01
  let w12 := k.i6 ^^^ w02
  let w13 := k.i7 ^^^ w03
  let w20 := k.i8 ^^^ w10
  let w21 := k.i9 ^^^ w11
  let w22 := k.i10 ^^^ w12
  let w23 := k.i11 ^^^ w13
  ⟨w00, w01, w02, w03, w10, w11, w12, w13, w20, w21, w22, w23,
   k.i12 ^^^ w20, k.i13 ^^^ w21, k.i14 ^^^ w22, k.i15 ^^^ w23⟩

/-- The AES-128 round-constant bytes. -/
def rconT : List Nat := [1, 2, 4, 8, 16, 32, 64, 128, 27, 54]

/-- Round key `n` of the AES-128 key schedule. -/
def rk (key : AESState) : Nat → AESState
  | 0 => key
  | n + 1 => nextRoundKey (rk key n) (rconT.getD n 0)

/-- The nine middle-round keys. -/
def midKeys (key : AESState) : List AESState :=
  [rk key 1, rk key 2, rk key 3, rk key 4, rk key 5, rk key 6, rk key 7,
   rk key 8, rk key 9]

/-- One middle encryption round. -/
def encRound (k s : AESState) : AESState := ark (mixColumns (shiftRows (subBytes s))) k

/-- One middle decryption round (inverse of `encRound`). -/
def decRound (k s : AESState) : AESState :=
  invSubBytes (invShiftRows (invMixColumns (ark s k)))

def encryptRounds : List AESState → AESState → AESState
  | [], s => s
  | k :: ks, s => encryptRounds ks (encRound k s)

def decryptRounds : List AESState → AESState → AESState
  | [], s => s
  | k :: ks, s => decRound k (decryptRounds ks s)

/-- AES-128 block encryption (FIPS 197 §5.1). -/
def encryptBlock (key b : AESState) : AESState :=
  ark (shiftRows (subBytes (encryptRounds (midKeys key) (ark b key)))) (rk key 10)

/-- AES-128 block decryption (FIPS 197 §5.3). -/
def decryptBlock (key b : AESState) : AESState :=
  ark (decryptRounds (midKeys key) (invSubBytes (invShiftRows (ark b (rk key 10))))) key

/-! ### AES-128 inverse proofs -/

theorem xor_lt_256 {x y : Nat} (hx : x < 256) (hy : y < 256) : x ^^^ y < 256 :=
  Nat.bitwise_lt (n := 8) hx hy

theorem xor4_lt {a b c d : Nat} (ha : a < 256) (hb : b < 256) (hc : c < 256)
    (hd : d < 256) : a ^^^ b ^^^ c ^^^ d < 256 :=
  xor_lt_256 (xor_lt_256 (xor_lt_256 ha hb) hc) hd

theorem sbox_lt_aux : ∀ b < 256, sbox b < 256 := by decide

theorem sbox_lt (b : Nat) : sbox b < 256 := by
  rcases Nat.lt_or_ge b 256 with h | h
  · exact sbox_lt_aux b h
  · unfold sbox
    rw [List.getD_eq_default]
    · norm_num
    · have hlen : sboxT.length = 256 := by rfl
      omega

theorem invSbox_sbox : ∀ b < 256, invSbox (sbox b) = b := by decide

theorem xt_lt_aux : ∀ x < 256, xt x < 256 := by decide

theorem xt_lt {x : Nat} (h : x < 256) : xt x < 256 := xt_lt_aux x h

theorem two_mul_xor (x y : Nat) : 2 * (x ^^^ y) = 2 * x ^^^ 2 * y := by
  have h := Nat.xor_bit false x false y
  simpa [Nat.bit] using h.symm

theorem xor_div_128 (a b : Nat) : (a ^^^ b) / 128 = a / 128 ^^^ b / 128 := by
  have h : ∀ z : Nat, z / 128 = z / 2 / 2 / 2 / 2 / 2 / 2 / 2 := by intro z; omega
  rw [h, h, h, Nat.xor_div_two, Nat.xor_div_two, Nat.xor_div_two, Nat.xor_div_two,
    Nat.xor_div_two, Nat.xor_div_two, Nat.xor_div_two]

theorem ite283 {x : Nat} (hx : x < 256) :
    (if 128 ≤ x then 283 else 0) = 283 * (x / 128) := by
  rcases Nat.lt_or_ge x 128 with h | h
  · rw [if_neg (by omega)]
    have hz : x / 128 = 0 := by omega
    rw [hz]
  · rw [if_pos h]
    have ho : x / 128 = 1 := by omega
    rw [ho]

theorem xor283mul {b1 b2 : Nat} (h1 : b1 ≤ 1) (h2 : b2 ≤ 1) :
    283 * b1 ^^^ 283 * b2 = 283 * (b1 ^^^ b2) := by
  interval_cases b1 <;> interval_cases b2 <;> decide

theorem xor_lcomm (a b c : Nat) : a ^^^ (b ^^^ c) = b ^^^ (a ^^^ c) := by
  rw [← Nat.xor_assoc, Nat.xor_comm a b, Nat.xor_assoc]

theorem xt_linear {x y : Nat} (hx : x < 256) (hy : y < 256) :
    xt (x ^^^ y) = xt x ^^^ xt y := by
  have hxy : x ^^^ y < 256 := xor_lt_256 hx hy
  unfold xt
  rw [ite283 hxy, ite283 hx, ite283 hy, xor_div_128, two_mul_xor,
    ← xor283mul (by omega) (by omega)]
  simp [Nat.xor_assoc, Nat.xor_comm, xor_lcomm]

theorem mul3_lt {x : Nat} (h : x < 256) : mul3 x < 256 := xor_lt_256 (xt_lt h) h

theorem mul9_lt {x : Nat} (h : x < 256) : mul9 x < 256 :=
  xor_lt_256 (xt_lt (xt_lt (xt_lt h))) h

theorem mul11_lt {x : Nat} (h : x < 256) : mul11 x < 256 :=
  xor_lt_256 (xor_lt_256 (xt_lt (xt_lt (xt_lt h))) (xt_lt h)) h

theorem mul13_lt {x : Nat} (h : x < 256) : mul13 x < 256 :=
  xor_lt_256 (xor_lt_256 (xt_lt (xt_lt (xt_lt h))) (xt_lt (xt_lt h))) h

theorem mul14_lt {x : Nat} (h : x < 256) : mul14 x < 256 :=
  xor_lt_256 (xor_lt_256 (xt_lt (xt_lt (xt_lt h))) (xt_lt (xt_lt h))) (xt_lt h)

theorem xt3_linear {x y : Nat} (hx : x < 256) (hy : y < 256) :
    xt (xt (xt (x ^^^ y))) = xt (xt (xt x)) ^^^ xt (xt (xt y)) := by
  rw [xt_linear hx hy, xt_linear (xt_lt hx) (xt_lt hy),
    xt_linear (xt_lt (xt_lt hx)) (xt_lt (xt_lt hy))]

theorem mul3_linear {x y : Nat} (hx : x < 256) (hy : y < 256) :
    mul3 (x ^^^ y) = mul3 x ^^^ mul3 y := by
  unfold mul3
  rw [xt_linear hx hy]
  simp [Nat.xor_assoc, Nat.xor_comm, xor_lcomm]

theorem mul9_linear {x y : Nat} (hx : x < 256) (hy : y < 256) :
    mul9 (x ^^^ y) = mul9 x ^^^ mul9 y := by
  unfold mul9
  rw [xt3_linear hx hy]
  simp [Nat.xor_assoc, Nat.xor_comm, xor_lcomm]

theorem mul11_linear {x y : Nat} (hx : x < 256) (hy : y < 256) :
    mul11 (x ^^^ y) = mul11 x ^^^ mul11 y := by
  unfold mul11
  rw [xt3_linear hx hy, xt_linear hx hy]
  simp [Nat.xor_assoc, Nat.xor_comm, xor_lcomm]

theorem mul13_linear {x y : Nat} (hx : x < 256) (hy : y < 256) :
    mul13 (x ^^^ y) = mul13 x ^^^ mul13 y := by
  unfold mul13
  rw [xt3_linear hx hy, xt_linear hx hy, xt_linear (xt_lt hx) (xt_lt hy)]
  simp [Nat.xor_assoc, Nat.xor_comm, xor_lcomm]

theorem mul14_linear {x y : Nat} (hx : x < 256) (hy : y < 256) :
    mul14 (x ^^^ y) = mul14 x ^^^ mul14 y := by
  unfold mul14
  rw [xt3_linear hx hy, xt_linear hx hy, xt_linear (xt_lt hx) (xt_lt hy)]
  simp [Nat.xor_assoc, Nat.xor_comm, xor_lcomm]

theorem lin4 {f : Nat → Nat}
    (hf : ∀ {x y : Nat}, x < 256 → y < 256 → f (x ^^^ y) = f x ^^^ f y)
    {p q r s : Nat} (hp : p < 256) (hq : q < 256) (hr : r < 256) (hs : s < 256) :
    f (p ^^^ q ^^^ r ^^^ s) = f p ^^^ f q ^^^ f r ^^^ f s := by
  rw [hf (xor_lt_256 (xor_lt_256 hp hq) hr) hs, hf (xor_lt_256 hp hq) hr, hf hp hq]

theorem mcoef_diag : ∀ a < 256,
    mul14 (xt a) ^^^ mul11 a ^^^ mul13 a ^^^ mul9 (mul3 a) = a := by decide

theorem mcoef_z1 : ∀ a < 256,
    mul14 (mul3 a) ^^^ mul11 (xt a) ^^^ mul13 a ^^^ mul9 a = 0 := by decide

theorem mcoef_z2 : ∀ a < 256,
    mul14 a ^^^ mul11 (mul3 a) ^^^ mul13 (xt a) ^^^ mul9 a = 0 := by decide

theorem mcoef_z3 : ∀ a < 256,
    mul14 a ^^^ mul11 a ^^^ mul13 (mul3 a) ^^^ mul9 (xt a) = 0 := by decide

theorem invmix_comp0 {a0 a1 a2 a3 : Nat} (h0 : a0 < 256) (h1 : a1 < 256)
    (h2 : a2 < 256) (h3 : a3 < 256) :
    mul14 (xt a0 ^^^ mul3 a1 ^^^ a2 ^^^ a3) ^^^ mul11 (a0 ^^^ xt a1 ^^^ mul3 a2 ^^^ a3)
      ^^^ mul13 (a0 ^^^ a1 ^^^ xt a2 ^^^ mul3 a3)
      ^^^ mul9 (mul3 a0 ^^^ a1 ^^^ a2 ^^^ xt a3) = a0 := by
  rw [lin4 (fun hx hy => mul14_linear hx hy) (xt_lt h0) (mul3_lt h1) h2 h3,
    lin4 (fun hx hy => mul11_linear hx hy) h0 (xt_lt h1) (mul3_lt h2) h3,
    lin4 (fun hx hy => mul13_linear hx hy) h0 h1 (xt_lt h2) (mul3_lt h3),
    lin4 (fun hx hy => mul9_linear hx hy) (mul3_lt h0) h1 h2 (xt_lt h3)]
  trans ((mul14 (xt a0) ^^^ mul11 a0 ^^^ mul13 a0 ^^^ mul9 (mul3 a0)) ^^^
    ((mul14 (mul3 a1) ^^^ mul11 (xt a1) ^^^ mul13 a1 ^^^ mul9 a1) ^^^
      ((mul14 a2 ^^^ mul11 (mul3 a2) ^^^ mul13 (xt a2) ^^^ mul9 a2) ^^^
        (mul14 a3 ^^^ mul11 a3 ^^^ mul13 (mul3 a3) ^^^ mul9 (xt a3)))))
  · simp [Nat.xor_assoc, Nat.xor_comm, xor_lcomm]
  · rw [mcoef_diag a0 h0, mcoef_z1 a1 h1, mcoef_z2 a2 h2, mcoef_z3 a3 h3]
    simp

theorem invmix_comp1 {a0 a1 a2 a3 : Nat} (h0 : a0 < 256) (h1 : a1 < 256)
    (h2 : a2 < 256) (h3 : a3 < 256) :
    mul9 (xt a0 ^^^ mul3 a1 ^^^ a2 ^^^ a3) ^^^ mul14 (a0 ^^^ xt a1 ^^^ mul3 a2 ^^^ a3)
      ^^^ mul11 (a0 ^^^ a1 ^^^ xt a2 ^^^ mul3 a3)
      ^^^ mul13 (mul3 a0 ^^^ a1 ^^^ a2 ^^^ xt a3) = a1 := by
  rw [lin4 (fun hx hy => mul9_linear hx hy) (xt_lt h0) (mul3_lt h1) h2 h3,
    lin4 (fun hx hy => mul14_linear hx hy) h0 (xt_lt h1) (mul3_lt h2) h3,
    lin4 (fun hx hy => mul11_linear hx hy) h0 h1 (xt_lt h2) (mul3_lt h3),
    lin4 (fun hx hy => mul13_linear hx hy) (mul3_lt h0) h1 h2 (xt_lt h3)]
  trans ((mul14 a0 ^^^ mul11 a0 ^^^ mul13 (mul3 a0) ^^^ mul9 (xt a0)) ^^^
    ((mul14 (xt a1) ^^^ mul11 a1 ^^^ mul13 a1 ^^^ mul9 (mul3 a1)) ^^^
      ((mul14 (mul3 a2) ^^^ mul11 (xt a2) ^^^ mul13 a2 ^^^ mul9 a2) ^^^
        (mul14 a3 ^^^ mul11 (mul3 a3) ^^^ mul13 (xt a3) ^^^ mul9 a3))))
  · simp [Nat.xor_assoc, Nat.xor_comm, xor_lcomm]
  · rw [mcoef_z3 a0 h0, mcoef_diag a1 h1, mcoef_z1 a2 h2, mcoef_z2 a3 h3]
    simp

theorem invmix_comp2 {a0 a1 a2 a3 : Nat} (h0 : a0 < 256) (h1 : a1 < 256)
    (h2 : a2 < 256) (h3 : a3 < 256) :
    mul13 (xt a0 ^^^ mul3 a1 ^^^ a2 ^^^ a3) ^^^ mul9 (a0 ^^^ xt a1 ^^^ mul3 a2 ^^^ a3)
      ^^^ mul14 (a0 ^^^ a1 ^^^ xt a2 ^^^ mul3 a3)
      ^^^ mul11 (mul3 a0 ^^^ a1 ^^^ a2 ^^^ xt a3) = a2 := by
  rw [lin4 (fun hx hy => mul13_linear hx hy) (xt_lt h0) (mul3_lt h1) h2 h3,
    lin4 (fun hx hy => mul9_linear hx hy) h0 (xt_lt h1) (mul3_lt h2) h3,
    lin4 (fun hx hy => mul14_linear hx hy) h0 h1 (xt_lt h2) (mul3_lt h3),
    lin4 (fun hx hy => mul11_linear hx hy) (mul3_lt h0) h1 h2 (xt_lt h3)]
  trans ((mul14 a0 ^^^ mul11 (mul3 a0) ^^^ mul13 (xt a0) ^^^ mul9 a0) ^^^
    ((mul14 a1 ^^^ mul11 a1 ^^^ mul13 (mul3 a1) ^^^ mul9 (xt a1)) ^^^
      ((mul14 (xt a2) ^^^ mul11 a2 ^^^ mul13 a2 ^^^ mul9 (mul3 a2)) ^^^
        (mul14 (mul3 a3) ^^^ mul11 (xt a3) ^^^ mul13 a3 ^^^ mul9 a3))))
  · simp [Nat.xor_assoc, Nat.xor_comm, xor_lcomm]
  · rw [mcoef_z2 a0 h0, mcoef_z3 a1 h1, mcoef_diag a2 h2, mcoef_z1 a3 h3]
    simp

theorem invmix_comp3 {a0 a1 a2 a3 : Nat} (h0 : a0 < 256) (h1 : a1 < 256)
    (h2 : a2 < 256) (h3 : a3 < 256) :
    mul11 (xt a0 ^^^ mul3 a1 ^^^ a2 ^^^ a3) ^^^ mul13 (a0 ^^^ xt a1 ^^^ mul3 a2 ^^^ a3)
      ^^^ mul9 (a0 ^^^ a1 ^^^ xt a2 ^^^ mul3 a3)
      ^^^ mul14 (mul3 a0 ^^^ a1 ^^^ a2 ^^^ xt a3) = a3 := by
  rw [lin4 (fun hx hy => mul11_linear hx hy) (xt_lt h0) (mul3_lt h1) h2 h3,
    lin4 (fun hx hy => mul13_linear hx hy) h0 (xt_lt h1) (mul3_lt h2) h3,
    lin4 (fun hx hy => mul9_linear hx hy) h0 h1 (xt_lt h2) (mul3_lt h3),
    lin4 (fun hx hy => mul14_linear hx hy) (mul3_lt h0) h1 h2 (xt_lt h3)]
  trans ((mul14 (mul3 a0) ^^^ mul11 (xt a0) ^^^ mul13 a0 ^^^ mul9 a0) ^^^
    ((mul14 a1 ^^^ mul11 (mul3 a1) ^^^ mul13 (xt a1) ^^^ mul9 a1) ^^^
      ((mul14 a2 ^^^ mul11 a2 ^^^ mul13 (mul3 a2) ^^^ mul9 (xt a2)) ^^^
        (mul14 (xt a3) ^^^ mul11 a3 ^^^ mul13 a3 ^^^ mul9 (mul3 a3)))))
  · simp [Nat.xor_assoc, Nat.xor_comm, xor_lcomm]
  · rw [mcoef_z1 a0 h0, mcoef_z2 a1 h1, mcoef_z3 a2 h2, mcoef_diag a3 h3]
    simp

theorem invShiftRows_shiftRows (s : AESState) : invShiftRows (shiftRows s) = s := rfl

theorem ark_ark (s k : AESState) : ark (ark s k) k = s := by
  cases s
  cases k
  simp [ark, Nat.xor_cancel_right]

theorem invSubBytes_subBytes (s : AESState) (hs : s.Bounded) :
    invSubBytes (subBytes s) = s := by
  cases s
  obtain ⟨h0, h1, h2, h3, h4, h5, h6, h7, h8, h9, h10, h11, h12, h13, h14, h15⟩ := hs
  simp only [subBytes, invSubBytes]
  simp only [invSbox_sbox _ h0, invSbox_sbox _ h1, invSbox_sbox _ h2,
    invSbox_sbox _ h3, invSbox_sbox _ h4, invSbox_sbox _ h5, invSbox_sbox _ h6,
    invSbox_sbox _ h7, invSbox_sbox _ h8, invSbox_sbox _ h9, invSbox_sbox _ h10,
    invSbox_sbox _ h11, invSbox_sbox _ h12, invSbox_sbox _ h13,
    invSbox_sbox _ h14, invSbox_sbox _ h15]

theorem invMixColumns_mixColumns (s : AESState) (hs : s.Bounded) :
    invMixColumns (mixColumns s) = s := by
  cases s
  obtain ⟨h0, h1, h2, h3, h4, h5, h6, h7, h8, h9, h10, h11, h12, h13, h14, h15⟩ := hs
  simp only [mixColumns, invMixColumns, mixCol, invMixCol]
  simp only [AESState.mk.injEq]
  exact ⟨invmix_comp0 h0 h1 h2 h3, invmix_comp1 h0 h1 h2 h3,
    invmix_comp2 h0 h1 h2 h3, invmix_comp3 h0 h1 h2 h3,
    invmix_comp0 h4 h5 h6 h7, invmix_comp1 h4 h5 h6 h7,
    invmix_comp2 h4 h5 h6 h7, invmix_comp3 h4 h5 h6 h7,
    invmix_comp0 h8 h9 h10 h11, invmix_comp1 h8 h9 h10 h11,
    invmix_comp2 h8 h9 h10 h11, invmix_comp3 h8 h9 h10 h11,
    invmix_comp0 h12 h13 h14 h15, invmix_comp1 h12 h13 h14 h15,
    invmix_comp2 h12 h13 h14 h15, invmix_comp3 h12 h13 h14 h15⟩

theorem subBytes_bounded (s : AESState) : (subBytes s).Bounded :=
  ⟨sbox_lt _, sbox_lt _, sbox_lt _, sbox_lt _, sbox_lt _, sbox_lt _, sbox_lt _,
   sbox_lt _, sbox_lt _, sbox_lt _, sbox_lt _, sbox_lt _, sbox_lt _, sbox_lt _,
   sbox_lt _, sbox_lt _⟩

theorem shiftRows_bounded {s : AESState} (hs : s.Bounded) : (shiftRows s).Bounded := by
  obtain ⟨h0, h1, h2, h3, h4, h5, h6, h7, h8, h9, h10, h11, h12, h13, h14, h15⟩ := hs
  exact ⟨h0, h5, h10, h15, h4, h9, h14, h3, h8, h13, h2, h7, h12, h1, h6, h11⟩

theorem mixColumns_bounded {s : AESState} (hs : s.Bounded) : (mixColumns s).Bounded := by
  cases s
  obtain ⟨h0, h1, h2, h3, h4, h5, h6, h7, h8, h9, h10, h11, h12, h13, h14, h15⟩ := hs
  simp only [mixColumns, mixCol, AESState.Bounded]
  refine ⟨?_, ?_, ?_, ?_, ?_, ?_, ?_, ?_, ?_, ?_, ?_, ?_, ?_, ?_, ?_, ?_⟩ <;>
    (apply xor4_lt) <;>
    first
      | assumption
      | (apply xt_lt; assumption)
      | (apply mul3_lt; assumption)

theorem ark_bounded {s k : AESState} (hs : s.Bounded) (hk : k.Bounded) :
    (ark s k).Bounded := by
  cases s
  cases k
  obtain ⟨h0, h1, h2, h3, h4, h5, h6, h7, h8, h9, h10, h11, h12, h13, h14, h15⟩ := hs
  obtain ⟨g0, g1, g2, g3, g4, g5, g6, g7, g8, g9, g10, g11, g12, g13, g14, g15⟩ := hk
  simp only [ark, AESState.Bounded]
  refine ⟨?_, ?_, ?_, ?_, ?_, ?_, ?_, ?_, ?_, ?_, ?_, ?_, ?_, ?_, ?_, ?_⟩ <;>
    exact xor_lt_256 (by assumption) (by assumption)

theorem nextRoundKey_bounded {k : AESState} (hk : k.Bounded) {rc : Nat}
    (hrc : rc < 256) : (nextRoundKey k rc).Bounded := by
  cases k
  obtain ⟨h0, h1, h2, h3, h4, h5, h6, h7, h8, h9, h10, h11, h12, h13, h14, h15⟩ := hk
  simp only [nextRoundKey, AESState.Bounded]
  refine ⟨?_, ?_, ?_, ?_, ?_, ?_, ?_, ?_, ?_, ?_, ?_, ?_, ?_, ?_, ?_, ?_⟩ <;>
    (repeat'
      first
        | apply xor_lt_256
        | exact sbox_lt _
        | assumption)

theorem rconT_getD_lt (n : Nat) : rconT.getD n 0 < 256 := by
  rcases Nat.lt_or_ge n 10 with h | h
  · revert h
    revert n
    decide
  · rw [List.getD_eq_default]
    · norm_num
    · have hlen : rconT.length = 10 := by rfl
      omega

theorem rk_bounded {key : AESState} (hk : key.Bounded) (n : Nat) :
    (rk key n).Bounded := by
  induction n with
  | zero => exact hk
  | succ m ih => exact nextRoundKey_bounded ih (rconT_getD_lt m)

theorem encRound_bounded {k s : AESState} (hk : k.Bounded) (hs : s.Bounded) :
    (encRound k s).Bounded :=
  ark_bounded (mixColumns_bounded (shiftRows_bounded (subBytes_bounded _))) hk

theorem encryptRounds_bounded {ks : List AESState} {s : AESState}
    (hks : ∀ k ∈ ks, k.Bounded) (hs : s.Bounded) : (encryptRounds ks s).Bounded := by
  induction ks generalizing s with
  | nil => exact hs
  | cons k ks ih =>
      exact ih (fun x hx => hks x (by simp [hx]))
        (encRound_bounded (hks k (by simp)) hs)

theorem decRound_encRound {k s : AESState} (hk : k.Bounded) (hs : s.Bounded) :
    decRound k (encRound k s) = s := by
  unfold decRound encRound
  rw [ark_ark, invMixColumns_mixColumns _ (shiftRows_bounded (subBytes_bounded _)),
    invShiftRows_shiftRows, invSubBytes_subBytes _ hs]

theorem decryptRounds_encryptRounds {ks : List AESState} {s : AESState}
    (hks : ∀ k ∈ ks, k.Bounded) (hs : s.Bounded) :
    decryptRounds ks (encryptRounds ks s) = s := by
  induction ks generalizing s with
  | nil => rfl
  | cons k ks ih =>
      show decRound k (decryptRounds ks (encryptRounds ks (encRound k s))) = s
      rw [ih (fun x hx => hks x (by simp [hx]))
        (encRound_bounded (hks k (by simp)) hs)]
      exact decRound_encRound (hks k (by simp)) hs

theorem midKeys_bounded {key : AESState} (hk : key.Bounded) :
    ∀ k ∈ midKeys key, k.Bounded := by
  intro k hmem
  simp only [midKeys, List.mem_cons, List.not_mem_nil, or_false] at hmem
  rcases hmem with h | h | h | h | h | h | h | h | h <;>
    (subst h; exact rk_bounded hk _)

/-- AES-128 block decryption inverts block encryption. -/
theorem decryptBlock_encryptBlock {key b : AESState} (hk : key.Bounded)
    (hb : b.Bounded) : decryptBlock key (encryptBlock key b) = b := by
  unfold decryptBlock encryptBlock
  rw [ark_ark, invShiftRows_shiftRows,
    invSubBytes_subBytes _ (encryptRounds_bounded (midKeys_bounded hk) (ark_bounded hb hk)),
    decryptRounds_encryptRounds (midKeys_bounded hk) (ark_bounded hb hk),
    ark_ark]

theorem encryptBlock_bounded {key b : AESState} (hk : key.Bounded)
    (hb : b.Bounded) : (encryptBlock key b).Bounded :=
  ark_bounded
    (shiftRows_bounded (subBytes_bounded _))
    (rk_bounded hk 10)

/-! ## PKCS#7 padding and CBC mode (the cipher layer used by Fernet) -/

/-- PKCS#7 padding to a 16-byte multiple. -/
def pkcs7Pad (m : List Nat) : List Nat :=
  m ++ List.replicate (16 - m.length % 16) (16 - m.length % 16)

/-- PKCS#7 unpadding; rejects malformed padding. -/
def pkcs7Unpad (m : List Nat) : Option (List Nat) :=
  match m.getLast? with
  | none => none
  | some n =>
      if 1 ≤ n ∧ n ≤ 16 ∧ n ≤ m.length ∧ (m.drop (m.length - n)).all (fun x => x = n)
      then some (m.take (m.length - n)) else none

/-- Split a byte list into 16-byte chunks. -/
def chunks16 (l : List Nat) : List (List Nat) :=
  if h : l = [] then []
  else (l.take 16) :: chunks16 (l.drop 16)
termination_by l.length
decreasing_by
  simp only [List.length_drop]
  have : 0 < l.length := List.length_pos.mpr h
  omega

/-- Read a 16-byte chunk as an AES state (input order). -/
def bytesToState (l : List Nat) : AESState :=
  ⟨l.getD 0 0, l.getD 1 0, l.getD 2 0, l.getD 3 0, l.getD 4 0, l.getD 5 0,
   l.getD 6 0, l.getD 7 0, l.getD 8 0, l.getD 9 0, l.getD 10 0, l.getD 11 0,
   l.getD 12 0, l.getD 13 0, l.getD 14 0, l.getD 15 0⟩

/-- Serialise an AES state back to its 16 bytes. -/
def stateToBytes (s : AESState) : List Nat :=
  [s.i0, s.i1, s.i2, s.i3, s.i4, s.i5, s.i6, s.i7, s.i8, s.i9, s.i10, s.i11,
   s.i12, s.i13, s.i14, s.i15]

/-- CBC encryption over a block list: each plaintext block is XORed with the
previous ciphertext block (initially the IV) before the block cipher. -/
def cbcEncBlocks (key iv : AESState) : List AESState → List AESState
  | [] => []
  | p :: ps =>
      let c := encryptBlock key (ark p iv)
      c :: cbcEncBlocks key c ps

/-- CBC decryption over a block list. -/
def cbcDecBlocks (key iv : AESState) : List AESState → List AESState
  | [] => []
  | c :: cs => ark (decryptBlock key c) iv :: cbcDecBlocks key c cs

/-- AES-128-CBC encryption of a byte message with PKCS#7 padding. -/
def cbcEncrypt (keyB iv m : List Nat) : List Nat :=
  (cbcEncBlocks (bytesToState keyB) (bytesToState iv)
    ((chunks16 (pkcs7Pad m)).map bytesToState)).flatMap stateToBytes

/-- AES-128-CBC decryption of a byte ciphertext, removing PKCS#7 padding. -/
def cbcDecrypt (keyB iv c : List Nat) : Option (List Nat) :=
  if c.length % 16 = 0 then
    pkcs7Unpad ((cbcDecBlocks (bytesToState keyB) (bytesToState iv)
      ((chunks16 c).map bytesToState)).flatMap stateToBytes)
  else none

theorem pkcs7Unpad_pad (m : List Nat) : pkcs7Unpad (pkcs7Pad m) = some m := by
  set k := 16 - m.length % 16 with hkdef
  have hk1 : 1 ≤ k := by omega
  have hk16 : k ≤ 16 := by omega
  have hlen : (pkcs7Pad m).length = m.length + k := by
    simp [pkcs7Pad]
  have hlast : (pkcs7Pad m).getLast? = some k := by
    rw [pkcs7Pad, List.getLast?_append, List.getLast?_replicate]
    rw [if_neg (by omega)]
    rfl
  have hdrop : (pkcs7Pad m).drop ((pkcs7Pad m).length - k) = List.replicate k k := by
    rw [hlen, Nat.add_sub_cancel, pkcs7Pad]
    exact List.drop_left' rfl
  have htake : (pkcs7Pad m).take ((pkcs7Pad m).length - k) = m := by
    rw [hlen, Nat.add_sub_cancel, pkcs7Pad]
    exact List.take_left' rfl
  simp only [pkcs7Unpad, hlast]
  rw [if_pos]
  · rw [htake]
  · refine ⟨hk1, hk16, by omega, ?_⟩
    rw [hdrop]
    simp only [List.all_eq_true, decide_eq_true_eq]
    intro x hx
    exact List.eq_of_mem_replicate hx

theorem pkcs7Pad_length_mod (m : List Nat) : (pkcs7Pad m).length % 16 = 0 := by
  simp [pkcs7Pad]
  omega

theorem pkcs7Pad_valid {m : List Nat} (hm : ValidBytes m) :
    ValidBytes (pkcs7Pad m) := by
  intro b hb
  rcases List.mem_append.mp hb with h | h
  · exact hm b h
  · have := List.eq_of_mem_replicate h
    omega

theorem getD_lt_of_valid {l : List Nat} (hl : ValidBytes l) (i : Nat) :
    l.getD i 0 < 256 := by
  rcases Nat.lt_or_ge i l.length with h | h
  · rw [List.getD_eq_getElem?_getD, List.getElem?_eq_getElem h]
    exact hl _ (List.getElem_mem h)
  · rw [List.getD_eq_default _ _ h]
    norm_num

theorem bytesToState_bounded {l : List Nat} (hl : ValidBytes l) :
    (bytesToState l).Bounded :=
  ⟨getD_lt_of_valid hl 0, getD_lt_of_valid hl 1, getD_lt_of_valid hl 2,
   getD_lt_of_valid hl 3, getD_lt_of_valid hl 4, getD_lt_of_valid hl 5,
   getD_lt_of_valid hl 6, getD_lt_of_valid hl 7, getD_lt_of_valid hl 8,
   getD_lt_of_valid hl 9, getD_lt_of_valid hl 10, getD_lt_of_valid hl 11,
   getD_lt_of_valid hl 12, getD_lt_of_valid hl 13, getD_lt_of_valid hl 14,
   getD_lt_of_valid hl 15⟩

theorem bytesToState_stateToBytes (s : AESState) :
    bytesToState (stateToBytes s) = s := rfl

theorem stateToBytes_length (s : AESState) : (stateToBytes s).length = 16 := rfl

theorem stateToBytes_valid {s : AESState} (hs : s.Bounded) :
    ValidBytes (stateToBytes s) := by
  obtain ⟨h0, h1, h2, h3, h4, h5, h6, h7, h8, h9, h10, h11, h12, h13, h14, h15⟩ := hs
  intro b hb
  simp only [stateToBytes, List.mem_cons, List.not_mem_nil, or_false] at hb
  rcases hb with h | h | h | h | h | h | h | h | h | h | h | h | h | h | h | h <;>
    (subst h; assumption)

theorem stateToBytes_bytesToState {l : List Nat} (h : l.length = 16) :
    stateToBytes (bytesToState l) = l := by
  rcases l with _ | ⟨a0, l⟩
  · simp only [List.length_nil] at h; omega
  rcases l with _ | ⟨a1, l⟩
  · simp only [List.length_cons, List.length_nil] at h; omega
  rcases l with _ | ⟨a2, l⟩
  · simp only [List.length_cons, List.length_nil] at h; omega
  rcases l with _ | ⟨a3, l⟩
  · simp only [List.length_cons, List.length_nil] at h; omega
  rcases l with _ | ⟨a4, l⟩
  · simp only [List.length_cons, List.length_nil] at h; omega
  rcases l with _ | ⟨a5, l⟩
  · simp only [List.length_cons, List.length_nil] at h; omega
  rcases l with _ | ⟨a6, l⟩
  · simp only [List.length_cons, List.length_nil] at h; omega
  rcases l with _ | ⟨a7, l⟩
  · simp only [List.length_cons, List.length_nil] at h; omega
  rcases l with _ | ⟨a8, l⟩
  · simp only [List.length_cons, List.length_nil] at h; omega
  rcases l with _ | ⟨a9, l⟩
  · simp only [List.length_cons, List.length_nil] at h; omega
  rcases l with _ | ⟨a10, l⟩
  · simp only [List.length_cons, List.length_nil] at h; omega
  rcases l with _ | ⟨a11, l⟩
  · simp only [List.length_cons, List.length_nil] at h; omega
  rcases l with _ | ⟨a12, l⟩
  · simp only [List.length_cons, List.length_nil] at h; omega
  rcases l with _ | ⟨a13, l⟩
  · simp only [List.length_cons, List.length_nil] at h; omega
  rcases l with _ | ⟨a14, l⟩
  · simp only [List.length_cons, List.length_nil] at h; omega
  rcases l with _ | ⟨a15, l⟩
  · simp only [List.length_cons, List.length_nil] at h; omega
  rcases l with _ | ⟨a16, l⟩
  · rfl
  · simp only [List.length_cons, List.length_nil] at h; omega

/-- Reassembling the 16-byte chunks of a 16-multiple byte list gives it back. -/
theorem chunks16_recompose (l : List Nat) (h : l.length % 16 = 0) :
    ((chunks16 l).map bytesToState).flatMap stateToBytes = l := by
  induction l using chunks16.induct with
  | case1 => simp [chunks16]
  | case2 l hnil ih =>
      rw [chunks16, dif_neg hnil]
      have hpos : 0 < l.length := List.length_pos.mpr hnil
      have h16 : 16 ≤ l.length := by omega
      have htl : (l.take 16).length = 16 := by
        simp [List.length_take]
        omega
      simp only [List.map_cons, List.flatMap_cons]
      rw [stateToBytes_bytesToState htl, ih (by simp [List.length_drop]; omega)]
      exact List.take_append_drop 16 l

theorem chunks16_valid {l : List Nat} (hl : ValidBytes l) :
    ∀ ch ∈ chunks16 l, ValidBytes ch := by
  induction l using chunks16.induct with
  | case1 =>
      intro ch hch
      simp [chunks16] at hch
  | case2 l hnil ih =>
      intro ch hch
      rw [chunks16, dif_neg hnil] at hch
      rcases List.mem_cons.mp hch with h | h
      · subst h
        exact fun b hb => hl b (List.take_subset 16 l hb)
      · exact ih (fun b hb => hl b (List.drop_subset 16 l hb)) ch h

/-- Splitting a flattened state list back into chunks recovers the states. -/
theorem chunks16_flatMap_states (cs : List AESState) :
    (chunks16 (cs.flatMap stateToBytes)).map bytesToState = cs := by
  induction cs with
  | nil => simp [chunks16]
  | cons c cs ih =>
      simp only [List.flatMap_cons]
      have hne : stateToBytes c ++ cs.flatMap stateToBytes ≠ [] := by
        simp [stateToBytes]
      rw [chunks16, dif_neg hne]
      rw [List.take_left' (stateToBytes_length c), List.drop_left' (stateToBytes_length c)]
      simp only [List.map_cons]
      rw [bytesToState_stateToBytes, ih]

theorem cbcEncBlocks_bounded {key : AESState} (hkey : key.Bounded) :
    ∀ (ps : List AESState) (iv : AESState), iv.Bounded → (∀ p ∈ ps, p.Bounded) →
      ∀ c ∈ cbcEncBlocks key iv ps, c.Bounded := by
  intro ps
  induction ps with
  | nil => intro iv _ _ c hc; simp [cbcEncBlocks] at hc
  | cons p ps ih =>
      intro iv hiv hps c hc
      simp only [cbcEncBlocks, List.mem_cons] at hc
      have hcb : (encryptBlock key (ark p iv)).Bounded :=
        encryptBlock_bounded hkey (ark_bounded (hps p (by simp)) hiv)
      rcases hc with h | h
      · subst h; exact hcb
      · exact ih _ hcb (fun x hx => hps x (by simp [hx])) c h

theorem cbcDecBlocks_encBlocks {key : AESState} (hkey : key.Bounded) :
    ∀ (ps : List AESState) (iv : AESState), iv.Bounded → (∀ p ∈ ps, p.Bounded) →
      cbcDecBlocks key iv (cbcEncBlocks key iv ps) = ps := by
  intro ps
  induction ps with
  | nil => intro iv _ _; rfl
  | cons p ps ih =>
      intro iv hiv hps
      have hpb : p.Bounded := hps p (by simp)
      have hcb : (encryptBlock key (ark p iv)).Bounded :=
        encryptBlock_bounded hkey (ark_bounded hpb hiv)
      simp only [cbcEncBlocks, cbcDecBlocks]
      rw [decryptBlock_encryptBlock hkey (ark_bounded hpb hiv), ark_ark,
        ih _ hcb (fun x hx => hps x (by simp [hx]))]

theorem cbcEncrypt_length_mod (keyB iv m : List Nat) :
    (cbcEncrypt keyB iv m).length % 16 = 0 := by
  unfold cbcEncrypt
  generalize (chunks16 (pkcs7Pad m)).map bytesToState = ps
  generalize bytesToState iv = ivs
  induction ps generalizing ivs with
  | nil => rfl
  | cons p ps ih =>
      simp only [cbcEncBlocks, List.flatMap_cons, List.length_append,
        stateToBytes_length]
      have := ih (encryptBlock (bytesToState keyB) (ark p ivs))
      omega

theorem cbcEncrypt_valid {keyB iv m : List Nat} (hkey : ValidBytes keyB)
    (hiv : ValidBytes iv) (hm : ValidBytes m) : ValidBytes (cbcEncrypt keyB iv m) := by
  unfold cbcEncrypt
  intro b hb
  rcases List.mem_flatMap.mp hb with ⟨c, hc, hbc⟩
  have hcb : c.Bounded := by
    refine cbcEncBlocks_bounded (bytesToState_bounded hkey) _ _
      (bytesToState_bounded hiv) ?_ c hc
    intro p hp
    rcases List.mem_map.mp hp with ⟨ch, hch, hpe⟩
    subst hpe
    exact bytesToState_bounded (chunks16_valid (pkcs7Pad_valid hm) ch hch)
  exact stateToBytes_valid hcb b hbc

/-- CBC decryption inverts CBC encryption. -/
theorem cbcDecrypt_cbcEncrypt {keyB iv m : List Nat} (hkey : ValidBytes keyB)
    (hiv : ValidBytes iv) (hm : ValidBytes m) :
    cbcDecrypt keyB iv (cbcEncrypt keyB iv m) = some m := by
  unfold cbcDecrypt
  rw [if_pos (cbcEncrypt_length_mod keyB iv m)]
  unfold cbcEncrypt
  rw [chunks16_flatMap_states]
  rw [cbcDecBlocks_encBlocks (bytesToState_bounded hkey) _ _
    (bytesToState_bounded hiv) ?hb]
  case hb =>
    intro p hp
    rcases List.mem_map.mp hp with ⟨ch, hch, hpe⟩
    subst hpe
    exact bytesToState_bounded (chunks16_valid (pkcs7Pad_valid hm) ch hch)
  rw [chunks16_recompose _ (pkcs7Pad_length_mod m)]
  exact pkcs7Unpad_pad m

/-! ## Fernet (the `cryptography.fernet` token scheme)

A Fernet key is the url-safe base64 encoding of 32 bytes: the first 16 are
the HMAC-SHA256 signing key, the last 16 the AES-128-CBC encryption key.
A token is `0x80 ‖ timestamp(8, BE) ‖ IV(16) ‖ ciphertext ‖ HMAC(32)`, the
whole token again url-safe base64 encoded.  The current time and the random
IV are the only nondeterminism of `Fernet.encrypt`; they are explicit
parameters here. -/

/-- The raw Fernet token for decoded key `k32`, timestamp bytes `ts` and
IV bytes `iv`. -/
def fernetTokenAt (k32 ts iv msg : List Nat) : List Nat :=
  let body := 128 :: (ts ++ iv ++ cbcEncrypt (List.drop 16 k32) iv msg)
  body ++ hmacSha256 (List.take 16 k32) body

/-- `Fernet(key).encrypt`, with timestamp and IV explicit. -/
def fernetEncrypt (keyB64 ts iv msg : List Nat) : Option (List Nat) :=
  match urlsafe_b64decode keyB64 with
  | some k32 =>
      if k32.length = 32 then some (urlsafe_b64encode (fernetTokenAt k32 ts iv msg))
      else none
  | none => none

/-- `Fernet(key).decrypt` (no TTL check), per the Fernet specification:
decode the token, check the version byte and the HMAC tag, then CBC-decrypt
and unpad; every failure is rejection. -/
def fernetDecrypt (keyB64 tokText : List Nat) : Option (List Nat) :=
  match urlsafe_b64decode keyB64 with
  | some k32 =>
      if k32.length = 32 then
        match urlsafe_b64decode tokText with
        | some tok =>
            if 57 ≤ tok.length ∧ tok.headD 0 = 128 then
              if hmacSha256 (List.take 16 k32) (tok.take (tok.length - 32))
                  = tok.drop (tok.length - 32) then
                cbcDecrypt (List.drop 16 k32) ((tok.drop 9).take 16)
                  ((tok.drop 25).take (tok.length - 57))
              else none
            else none
        | none => none
      else none
  | none => none

theorem fernetTokenAt_valid {k32 ts iv msg : List Nat} (hkv : ValidBytes k32)
    (htsv : ValidBytes ts) (hivv : ValidBytes iv) (hm : ValidBytes msg) :
    ValidBytes (fernetTokenAt k32 ts iv msg) := by
  intro b hb
  simp only [fernetTokenAt, List.cons_append, List.mem_cons, List.mem_append] at hb
  rcases hb with hb | hb
  · omega
  rcases hb with (hb | hb) | hb
  · rcases hb with hb | hb
    · exact htsv b hb
    · exact hivv b hb
  · exact cbcEncrypt_valid (fun x hx => hkv x (List.drop_subset 16 k32 hx)) hivv hm b hb
  · exact sha256_valid _ b hb

/-- Fernet decryption inverts Fernet encryption under the same key. -/
theorem fernetDecrypt_fernetEncrypt {keyB64 k32 ts iv msg : List Nat}
    (hk : urlsafe_b64decode keyB64 = some k32) (hk32 : k32.length = 32)
    (hkv : ValidBytes k32) (hts : ts.length = 8) (htsv : ValidBytes ts)
    (hiv : iv.length = 16) (hivv : ValidBytes iv) (hm : ValidBytes msg) :
    fernetDecrypt keyB64 (urlsafe_b64encode (fernetTokenAt k32 ts iv msg)) = some msg := by
  have hctv : ValidBytes (cbcEncrypt (List.drop 16 k32) iv msg) :=
    cbcEncrypt_valid (fun x hx => hkv x (List.drop_subset 16 k32 hx)) hivv hm
  set ct := cbcEncrypt (List.drop 16 k32) iv msg with hctdef
  set body := 128 :: (ts ++ iv ++ ct) with hbodydef
  set tag := hmacSha256 (List.take 16 k32) body with htagdef
  have htok : fernetTokenAt k32 ts iv msg = body ++ tag := rfl
  have htagl : tag.length = 32 := hmacSha256_length _ _
  have hbodyl : body.length = 25 + ct.length := by
    simp [hbodydef, List.length_append, hts, hiv]
    omega
  have htokv : ValidBytes (body ++ tag) := by
    rw [← htok]
    exact fernetTokenAt_valid hkv htsv hivv hm
  have htokl : (body ++ tag).length = 57 + ct.length := by
    simp [List.length_append, hbodyl, htagl]
    omega
  simp only [fernetDecrypt, hk]
  rw [if_pos hk32, htok]
  simp only [urlsafe_b64decode_encode _ htokv]
  rw [if_pos ?hcond]
  case hcond =>
    constructor
    · omega
    · simp [hbodydef]
  have hsplit1 : (body ++ tag).take ((body ++ tag).length - 32) = body := by
    rw [htokl]
    have h1 : 57 + ct.length - 32 = body.length := by omega
    rw [h1]
    exact List.take_left body tag
  have hsplit2 : (body ++ tag).drop ((body ++ tag).length - 32) = tag := by
    rw [htokl]
    have h1 : 57 + ct.length - 32 = body.length := by omega
    rw [h1]
    exact List.drop_left body tag
  rw [hsplit1, hsplit2, if_pos rfl]
  have hassoc1 : body ++ tag = (128 :: ts) ++ (iv ++ (ct ++ tag)) := by
    simp [hbodydef, List.append_assoc]
  have hassoc2 : body ++ tag = ((128 :: ts) ++ iv) ++ (ct ++ tag) := by
    simp [hbodydef, List.append_assoc]
  have hivex : ((body ++ tag).drop 9).take 16 = iv := by
    rw [hassoc1, List.drop_left' (by simp [hts]), List.take_left' hiv]
  have hctex : ((body ++ tag).drop 25).take ((body ++ tag).length - 57) = ct := by
    rw [htokl]
    have h1 : 57 + ct.length - 57 = ct.length := by omega
    rw [h1, hassoc2, List.drop_left' (by simp [hts, hiv]), List.take_left' rfl]
  rw [hivex, hctex, hctdef]
  exact cbcDecrypt_cbcEncrypt (fun x hx => hkv x (List.drop_subset 16 k32 hx)) hivv hm

/-! ## The `control_calidad` Django module

`Decimal` percentage fields are embedded as `Rat`; dates, free text and the
grain-type choice as `String`; the client foreign key as a `Nat` id. -/

/-- Python string truthiness for an optional string attribute:
`None` and the empty string are falsy. -/
def strFalsy : Option String → Bool
  | none => true
  | some s => s == ""

/-- The batch's client (`lote.cliente`).  `usuarios/models.py` gives the user
an `email`; the views read the identifier defensively with
`getattr(cliente, 'cedula', None)` and the settings module wiring the user
model is not among the sources, so `cedula` is modelled per the
specification as an optional attribute. -/
structure Cliente where
  username : String
  full_name : String
  email : Option String
  cedula : Option String

/-- The persisted fields of `LoteProcesado` (models.py). -/
structure LoteProcesado where
  cliente : Nat
  codigo_lote : String
  tipo_grano : String
  fecha_procesamiento : String
  cantidad_kg : Rat
  humedad : Rat
  impurezas : Rat
  grano_bueno : Option Rat
  grano_defectuoso : Option Rat
  observaciones : String
  enviado : Bool
  creado_en : Nat
deriving DecidableEq

/-- Python's `sum(filter(None, xs))` over `Decimal`s: falsy (zero) entries
are dropped before summing. -/
def pySumFilter (xs : List Rat) : Rat :=
  (xs.filter (fun x => decide (x ≠ 0))).sum

/-- Python's `max(Decimal('0'), x)`. -/
def pyMax0 (x : Rat) : Rat := if x ≤ 0 then 0 else x

theorem pyMax0_eq (x : Rat) : pyMax0 x = max 0 x := by
  unfold pyMax0
  split_ifs with h
  · rw [max_eq_left h]
  · rw [max_eq_right (le_of_lt (lt_of_not_ge h))]

/-- The derivation step of `LoteProcesado.save` (models.py:111–125): if
exactly one of good/defective is unset, derive it as
`max(0, 100 - sum(filter(None, [humedad, impurezas, known])))`. -/
def LoteProcesado.save_derive (l : LoteProcesado) : LoteProcesado :=
  if l.grano_defectuoso = none ∧ l.grano_bueno ≠ none then
    { l with
        grano_defectuoso := some (pyMax0 (100 - pySumFilter [l.humedad, l.impurezas, l.grano_bueno.getD 0])) }
  else if l.grano_bueno = none ∧ l.grano_defectuoso ≠ none then
    { l with
        grano_bueno := some (pyMax0 (100 - pySumFilter [l.humedad, l.impurezas, l.grano_defectuoso.getD 0])) }
  else l

/-- Persist `mem` over `stored`: Django's `save(update_fields=...)` writes
either every field or exactly the named ones. -/
def applyUpdateFields (stored mem : LoteProcesado) : Option (List String) → LoteProcesado
  | none => mem
  | some fs =>
      { cliente := if "cliente" ∈ fs then mem.cliente else stored.cliente
        codigo_lote := if "codigo_lote" ∈ fs then mem.codigo_lote else stored.codigo_lote
        tipo_grano := if "tipo_grano" ∈ fs then mem.tipo_grano else stored.tipo_grano
        fecha_procesamiento :=
          if "fecha_procesamiento" ∈ fs then mem.fecha_procesamiento
          else stored.fecha_procesamiento
        cantidad_kg := if "cantidad_kg" ∈ fs then mem.cantidad_kg else stored.cantidad_kg
        humedad := if "humedad" ∈ fs then mem.humedad else stored.humedad
        impurezas := if "impurezas" ∈ fs then mem.impurezas else stored.impurezas
        grano_bueno := if "grano_bueno" ∈ fs then mem.grano_bueno else stored.grano_bueno
        grano_defectuoso :=
          if "grano_defectuoso" ∈ fs then mem.grano_defectuoso else stored.grano_defectuoso
        observaciones :=
          if "observaciones" ∈ fs then mem.observaciones else stored.observaciones
        enviado := if "enviado" ∈ fs then mem.enviado else stored.enviado
        creado_en := if "creado_en" ∈ fs then mem.creado_en else stored.creado_en }

/-- `LoteProcesado.save`: run the derivation on the in-memory instance, then
write to the store honouring `update_fields`.  Returns (new stored row,
new in-memory instance). -/
def LoteProcesado.save (stored mem : LoteProcesado) (update_fields : Option (List String)) :
    LoteProcesado × LoteProcesado :=
  let m := mem.save_derive
  (applyUpdateFields stored m update_fields, m)

/-! ### Serializer (`LoteProcesadoSerializer`) -/

/-- Request payload for create/update.  Outer `Option` = field present in the
payload; for the two nullable percentage fields the inner `Option` is JSON
null.  Read-only fields (`enviado`, `creado_en`, ...) are not writable. -/
structure LoteInput where
  cliente : Option Nat
  codigo_lote : Option String
  tipo_grano : Option String
  fecha_procesamiento : Option String
  cantidad_kg : Option Rat
  humedad : Option Rat
  impurezas : Option Rat
  grano_bueno : Option (Option Rat)
  grano_defectuoso : Option (Option Rat)
  observaciones : Option String

/-- Python whitespace characters for `str.strip()`. -/
def pyWS (c : Char) : Bool :=
  c = ' ' ∨ c = '\t' ∨ c = '\n' ∨ c = '\r' ∨ c = '\x0b' ∨ c = '\x0c'

/-- Python `str.strip()`: remove leading and trailing whitespace. -/
def pyStrip (s : String) : String :=
  ⟨List.reverse (List.dropWhile pyWS (List.reverse (List.dropWhile pyWS s.data)))⟩

/-- Python `str.upper()` (character-wise uppercasing; lot codes are ASCII). -/
def pyUpper (s : String) : String := ⟨s.data.map Char.toUpper⟩

/-- `validate_codigo_lote` (serializers.py:50–54): `value.strip().upper()`. -/
def validate_codigo_lote (value : String) : String := pyUpper (pyStrip value)

/-- The effective (h, i, good, defective) quadruple seen by `validate`:
`data.get(field, getattr(self.instance, field, None))`. -/
def effectiveFields (inst : Option LoteProcesado) (data : LoteInput) :
    Option Rat × Option Rat × Option Rat × Option Rat :=
  ((match data.humedad with
    | some v => some v
    | none => inst.map (fun l => l.humedad)),
   (match data.impurezas with
    | some v => some v
    | none => inst.map (fun l => l.impurezas)),
   (match data.grano_bueno with
    | some v => v
    | none => inst.bind (fun l => l.grano_bueno)),
   (match data.grano_defectuoso with
    | some v => v
    | none => inst.bind (fun l => l.grano_defectuoso)))

/-- The cross-field `validate` (serializers.py:56–74): rejects exactly when
all four effective percentages are present and their sum exceeds 100. -/
def LoteProcesadoSerializer.validate (inst : Option LoteProcesado)
    (data : LoteInput) : Bool :=
  match effectiveFields inst data with
  | (some h, some i, some b, some d) => decide (¬(h + i + b + d > 100))
  | _ => true

/-- Field-level validation: required fields must be present on a non-partial
request, the percentage fields carry 0–100 range validators, `cantidad_kg`
a minimum of 0.01, and `tipo_grano` must be one of the declared choices.
(The store is modelled as a single row, so the lot-code uniqueness
constraint is vacuous here.) -/
def fieldValid (data : LoteInput) (part : Bool) : Bool :=
  (part || (data.cliente.isSome && data.codigo_lote.isSome
      && data.fecha_procesamiento.isSome && data.cantidad_kg.isSome
      && data.humedad.isSome && data.impurezas.isSome))
  && (match data.humedad with
      | some v => decide (0 ≤ v ∧ v ≤ 100)
      | none => true)
  && (match data.impurezas with
      | some v => decide (0 ≤ v ∧ v ≤ 100)
      | none => true)
  && (match data.grano_bueno with
      | some (some v) => decide (0 ≤ v ∧ v ≤ 100)
      | _ => true)
  && (match data.grano_defectuoso with
      | some (some v) => decide (0 ≤ v ∧ v ≤ 100)
      | _ => true)
  && (match data.cantidad_kg with
      | some v => decide (mkRat 1 100 ≤ v)
      | none => true)
  && (match data.tipo_grano with
      | some t => decide (t = "cafe" ∨ t = "maiz" ∨ t = "arroz" ∨ t = "otro")
      | none => true)

/-- `serializer.is_valid()`: field validation then cross-field `validate`. -/
def LoteProcesadoSerializer.is_valid (inst : Option LoteProcesado)
    (data : LoteInput) (part : Bool) : Bool :=
  fieldValid data part && LoteProcesadoSerializer.validate inst data

/-- `serializer.save()`: build the instance (create) or patch it (update)
from the validated data, normalising the lot code. -/
def LoteProcesadoSerializer.save_instance (inst0 : Option LoteProcesado)
    (data : LoteInput) : LoteProcesado :=
  match inst0 with
  | none =>
      { cliente := data.cliente.getD 0
        codigo_lote := validate_codigo_lote (data.codigo_lote.getD "")
        tipo_grano := data.tipo_grano.getD "otro"
        fecha_procesamiento := data.fecha_procesamiento.getD ""
        cantidad_kg := data.cantidad_kg.getD 0
        humedad := data.humedad.getD 0
        impurezas := data.impurezas.getD 0
        grano_bueno := data.grano_bueno.getD none
        grano_defectuoso := data.grano_defectuoso.getD none
        observaciones := data.observaciones.getD ""
        enviado := false
        creado_en := 0 }
  | some inst =>
      { inst with
        cliente := data.cliente.getD inst.cliente
        codigo_lote :=
          match data.codigo_lote with
          | some c => validate_codigo_lote c
          | none => inst.codigo_lote
        tipo_grano := data.tipo_grano.getD inst.tipo_grano
        fecha_procesamiento := data.fecha_procesamiento.getD inst.fecha_procesamiento
        cantidad_kg := data.cantidad_kg.getD inst.cantidad_kg
        humedad := data.humedad.getD inst.humedad
        impurezas := data.impurezas.getD inst.impurezas
        grano_bueno := data.grano_bueno.getD inst.grano_bueno
        grano_defectuoso := data.grano_defectuoso.getD inst.grano_defectuoso
        observaciones := data.observaciones.getD inst.observaciones }

/-! ### Views (views.py) -/

/-- `registrar_lote` (POST): validate, save, 201; otherwise 400 and no row. -/
def registrar_lote (data : LoteInput) : Nat × Option LoteProcesado :=
  if LoteProcesadoSerializer.is_valid none data false then
    (201, some (LoteProcesadoSerializer.save_instance none data).save_derive)
  else
    (400, none)

/-- `actualizar_lote` (PUT/PATCH): validate against the stored row, save,
200; otherwise 400 and the stored row is untouched. -/
def actualizar_lote (stored : LoteProcesado) (data : LoteInput) (part : Bool) :
    Nat × LoteProcesado :=
  if LoteProcesadoSerializer.is_valid (some stored) data part then
    (200, (LoteProcesadoSerializer.save_instance (some stored) data).save_derive)
  else
    (400, stored)

/-! ### Report utilities (utils.py) and the dispatch view -/

/-- Display of an optional `Decimal` field inside an f-string. -/
def showOptRat : Option Rat → String
  | none => "None"
  | some v => reprStr v

/-- `generar_pdf_lote` (utils.py:39–78): the document content — title line,
the fixed field lines in order, then the observation lines when non-empty —
as the byte output of the renderer. -/
def generar_pdf_lote (lote : LoteProcesado) (cliente : Cliente) : List Nat :=
  utf8Encode (String.intercalate "\n"
    ([s!"Informe de Calidad: Lote {lote.codigo_lote}",
      s!"Cliente: {cliente.full_name}",
      s!"Tipo de grano: {lote.tipo_grano}",
      s!"Procesado el: {lote.fecha_procesamiento}",
      s!"Cantidad (kg): {reprStr lote.cantidad_kg}",
      s!"Humedad (%): {reprStr lote.humedad}",
      s!"Impurezas (%): {reprStr lote.impurezas}",
      s!"Grano bueno (%): {showOptRat lote.grano_bueno}",
      s!"Grano defectuoso (%): {showOptRat lote.grano_defectuoso}"]
      ++ (if lote.observaciones ≠ "" then
            "Observaciones:" :: (lote.observaciones.splitOn "\n")
          else [])))

/-- `encriptar_con_cedula` (utils.py:81–93): derive the Fernet key as the
url-safe base64 of `SHA256(cedula.encode('utf-8'))` and encrypt; raises on an
empty cédula.  Returns (token, key). -/
def encriptar_con_cedula (pdf_bytes : List Nat) (cedula : String) (ts iv : List Nat) :
    Except String (List Nat × List Nat) :=
  if cedula = "" then
    .error "Cédula de usuario requerida para encriptar PDF."
  else
    let key := urlsafe_b64encode (sha256 (utf8Encode cedula))
    match fernetEncrypt key ts iv pdf_bytes with
    | some token => .ok (token, key)
    | none => .error "invalid Fernet key"

/-- Outcome of `enviar_informe_por_correo`. -/
structure CorreoResult where
  ok : Bool
  raisedMsg : String
  lote : LoteProcesado
  stored : LoteProcesado
  sent : Bool
  logs : List String

/-- `enviar_informe_por_correo` (utils.py:96–132): raise if the client has no
email; otherwise send (the transport outcome is the `sendOk` parameter).  On
success set `enviado` and persist only that field; on transport failure log
with the lot code and re-raise, leaving the batch untouched. -/
def enviar_informe_por_correo (stored lote : LoteProcesado) (cliente : Cliente)
    (sendOk : Bool) : CorreoResult :=
  if strFalsy cliente.email then
    ⟨false, "El cliente no tiene dirección de correo registrada.", lote, stored,
     false, []⟩
  else if sendOk then
    let l2 := { lote with enviado := true }
    let p := LoteProcesado.save stored l2 (some ["enviado"])
    ⟨true, "", p.2, p.1, true, []⟩
  else
    ⟨false, "transport error", lote, stored, false,
     ["Error enviando informe lote " ++ lote.codigo_lote]⟩

/-- Outcome of the dispatch endpoint. -/
structure ViewResult where
  status : Nat
  stored : LoteProcesado
  rendered : Bool
  sent : Bool
  logs : List String

/-- `enviar_informe_pdf` (views.py:90–117): 400 before the pipeline when the
client identifier is falsy; otherwise render → encrypt → send, set the
delivered flag, 200; any raised error maps to a 500 response. -/
def enviar_informe_pdf (stored : LoteProcesado) (cliente : Cliente)
    (ts iv : List Nat) (sendOk : Bool) : ViewResult :=
  if strFalsy cliente.cedula then
    ⟨400, stored, false, false, ["⚠️ Cliente sin cédula."]⟩
  else
    let lote := stored
    let pdf := generar_pdf_lote lote cliente
    match encriptar_con_cedula pdf (cliente.cedula.getD "") ts iv with
    | .error e => ⟨500, stored, true, false, [e]⟩
    | .ok te =>
        let r := enviar_informe_por_correo stored lote cliente sendOk
        if r.ok then
          let l2 := { r.lote with enviado := true }
          let p := LoteProcesado.save r.stored l2 (some ["enviado"])
          ⟨200, p.1, true, true, r.logs⟩
        else
          ⟨500, r.stored, true, false,
           r.logs ++ ["🚨 Error al generar/enviar informe: " ++ r.raisedMsg]⟩

/-! ## Helper lemmas about `save_derive` and the serializer -/

theorem pySumFilter_eq (h i p : Rat) : pySumFilter [h, i, p] = h + i + p := by
  unfold pySumFilter
  by_cases h0 : h = 0 <;> by_cases i0 : i = 0 <;> by_cases p0 : p = 0 <;>
    simp [h0, i0, p0, List.filter] <;> ring

theorem save_derive_humedad (l : LoteProcesado) : l.save_derive.humedad = l.humedad := by
  unfold LoteProcesado.save_derive
  split_ifs <;> rfl

theorem save_derive_impurezas (l : LoteProcesado) :
    l.save_derive.impurezas = l.impurezas := by
  unfold LoteProcesado.save_derive
  split_ifs <;> rfl

theorem save_derive_codigo (l : LoteProcesado) :
    l.save_derive.codigo_lote = l.codigo_lote := by
  unfold LoteProcesado.save_derive
  split_ifs <;> rfl

theorem save_derive_enviado (l : LoteProcesado) : l.save_derive.enviado = l.enviado := by
  unfold LoteProcesado.save_derive
  split_ifs <;> rfl

theorem save_derive_both_none {l : LoteProcesado} (hb : l.grano_bueno = none)
    (hd : l.grano_defectuoso = none) : l.save_derive = l := by
  unfold LoteProcesado.save_derive
  rw [if_neg (by simp [hb]), if_neg (by simp [hd])]

theorem save_derive_both_some {l : LoteProcesado} (hb : l.grano_bueno ≠ none)
    (hd : l.grano_defectuoso ≠ none) : l.save_derive = l := by
  unfold LoteProcesado.save_derive
  rw [if_neg (by simp [hd]), if_neg (by simp [hb])]

theorem save_derive_of_bueno {l : LoteProcesado} {p : Rat} (hb : l.grano_bueno = some p)
    (hd : l.grano_defectuoso = none) :
    l.save_derive = { l with
      grano_defectuoso := some (max 0 (100 - l.humedad - l.impurezas - p)) } := by
  unfold LoteProcesado.save_derive
  rw [if_pos ⟨hd, by simp [hb]⟩]
  have harith : (100 : Rat) - (l.humedad + l.impurezas + p)
      = 100 - l.humedad - l.impurezas - p := by ring
  simp [hb, pySumFilter_eq, pyMax0_eq, harith]

theorem save_derive_of_defectuoso {l : LoteProcesado} {p : Rat}
    (hd : l.grano_defectuoso = some p) (hb : l.grano_bueno = none) :
    l.save_derive = { l with
      grano_bueno := some (max 0 (100 - l.humedad - l.impurezas - p)) } := by
  unfold LoteProcesado.save_derive
  rw [if_neg (by simp [hd]), if_pos ⟨hb, by simp [hd]⟩]
  have harith : (100 : Rat) - (l.humedad + l.impurezas + p)
      = 100 - l.humedad - l.impurezas - p := by ring
  simp [hd, pySumFilter_eq, pyMax0_eq, harith]

theorem save_full (stored l : LoteProcesado) :
    (LoteProcesado.save stored l none).1 = l.save_derive := rfl

/-! ## Claims -/

/-- **C1** — For every batch saved with humidity `h` and impurities `i`
present and exactly one of good%/defective% known (value `p`), the save
operation sets the missing counterpart to `max(0, 100 - h - i - p)` and
leaves the known percentage unchanged. -/
theorem C1_save_derives_counterpart (stored l : LoteProcesado) (p : Rat) :
    (l.grano_bueno = some p → l.grano_defectuoso = none →
      (LoteProcesado.save stored l none).1.grano_defectuoso
          = some (max 0 (100 - l.humedad - l.impurezas - p)) ∧
        (LoteProcesado.save stored l none).1.grano_bueno = some p) ∧
    (l.grano_defectuoso = some p → l.grano_bueno = none →
      (LoteProcesado.save stored l none).1.grano_bueno
          = some (max 0 (100 - l.humedad - l.impurezas - p)) ∧
        (LoteProcesado.save stored l none).1.grano_defectuoso = some p) := by
  constructor
  · intro hb hd
    rw [save_full, save_derive_of_bueno hb hd]
    exact ⟨rfl, hb⟩
  · intro hd hb
    rw [save_full, save_derive_of_defectuoso hd hb]
    exact ⟨rfl, hd⟩

def c1lote : LoteProcesado :=
  ⟨1, "L-001", "cafe", "2024-01-01", 100, 10, 5, some 80, none, "", false, 0⟩

theorem C1_witness :
    c1lote.grano_bueno = some 80 ∧ c1lote.grano_defectuoso = none ∧
    ((LoteProcesado.save c1lote c1lote none).1.grano_defectuoso
        = some (max 0 (100 - c1lote.humedad - c1lote.impurezas - 80)) ∧
      (LoteProcesado.save c1lote c1lote none).1.grano_bueno = some 80) :=
  ⟨rfl, rfl, (C1_save_derives_counterpart c1lote c1lote 80).1 rfl rfl⟩

/-- **C10** — A save with both good% and defective% absent derives neither
(both remain absent), and humidity and impurities are never modified by a
save under any input. -/
theorem C10_save_no_derivation_frame (stored l : LoteProcesado) :
    (l.grano_bueno = none → l.grano_defectuoso = none →
      (LoteProcesado.save stored l none).1.grano_bueno = none ∧
      (LoteProcesado.save stored l none).1.grano_defectuoso = none) ∧
    (LoteProcesado.save stored l none).1.humedad = l.humedad ∧
    (LoteProcesado.save stored l none).1.impurezas = l.impurezas := by
  refine ⟨?_, ?_, ?_⟩
  · intro hb hd
    rw [save_full, save_derive_both_none hb hd]
    exact ⟨hb, hd⟩
  · rw [save_full]
    exact save_derive_humedad l
  · rw [save_full]
    exact save_derive_impurezas l

def c10lote : LoteProcesado :=
  ⟨1, "L-010", "maiz", "2024-01-02", 50, 12, 3, none, none, "", false, 0⟩

theorem C10_witness :
    c10lote.grano_bueno = none ∧ c10lote.grano_defectuoso = none ∧
    ((LoteProcesado.save c10lote c10lote none).1.grano_bueno = none ∧
     (LoteProcesado.save c10lote c10lote none).1.grano_defectuoso = none) ∧
    (LoteProcesado.save c10lote c10lote none).1.humedad = c10lote.humedad :=
  ⟨rfl, rfl, (C10_save_no_derivation_frame c10lote c10lote).1 rfl rfl,
   (C10_save_no_derivation_frame c10lote c10lote).2.1⟩

theorem save_instance_create_codigo (data : LoteInput) {c : String}
    (hc : data.codigo_lote = some c) :
    (LoteProcesadoSerializer.save_instance none data).codigo_lote
      = pyUpper (pyStrip c) := by
  simp [LoteProcesadoSerializer.save_instance, hc, validate_codigo_lote]

theorem save_instance_update_codigo (stored : LoteProcesado) (data : LoteInput)
    {c : String} (hc : data.codigo_lote = some c) :
    (LoteProcesadoSerializer.save_instance (some stored) data).codigo_lote
      = pyUpper (pyStrip c) := by
  simp [LoteProcesadoSerializer.save_instance, hc, validate_codigo_lote]

theorem registrar_codigo (data : LoteInput) {c : String}
    (hc : data.codigo_lote = some c) :
    ∀ rec, registrar_lote data = (201, some rec) →
      rec.codigo_lote = pyUpper (pyStrip c) := by
  intro rec hrec
  unfold registrar_lote at hrec
  split_ifs at hrec with hv
  · have h1 : some ((LoteProcesadoSerializer.save_instance none data).save_derive)
        = some rec := ((Prod.mk.injEq _ _ _ _).mp hrec).2
    have hrec2 : (LoteProcesadoSerializer.save_instance none data).save_derive = rec :=
      Option.some.inj h1
    rw [← hrec2, save_derive_codigo, save_instance_create_codigo data hc]
  · exact absurd ((Prod.mk.injEq _ _ _ _).mp hrec).1 (by norm_num)

/-- **C9** — Every lot code accepted through the create or update serializer
is stored stripped of surrounding whitespace and upper-cased, so two inputs
normalising identically store the same code. -/
theorem C9_codigo_normalized (stored : LoteProcesado) (data : LoteInput)
    (part : Bool) (c : String) (hc : data.codigo_lote = some c) :
    (∀ rec, registrar_lote data = (201, some rec) →
      rec.codigo_lote = pyUpper (pyStrip c)) ∧
    (∀ st, actualizar_lote stored data part = (200, st) →
      st.codigo_lote = pyUpper (pyStrip c)) ∧
    (∀ (data2 : LoteInput) (c2 : String) (rec rec2 : LoteProcesado),
      data2.codigo_lote = some c2 → pyUpper (pyStrip c2) = pyUpper (pyStrip c) →
      registrar_lote data = (201, some rec) → registrar_lote data2 = (201, some rec2) →
      rec2.codigo_lote = rec.codigo_lote) := by
  refine ⟨registrar_codigo data hc, ?_, ?_⟩
  · intro st hst
    unfold actualizar_lote at hst
    split_ifs at hst with hv
    · have hrec2 : (LoteProcesadoSerializer.save_instance (some stored) data).save_derive
          = st := ((Prod.mk.injEq _ _ _ _).mp hst).2
      rw [← hrec2, save_derive_codigo, save_instance_update_codigo stored data hc]
    · exact absurd ((Prod.mk.injEq _ _ _ _).mp hst).1 (by norm_num)
  · intro data2 c2 rec rec2 hc2 hnorm hr hr2
    have h1 := registrar_codigo data hc rec hr
    have h2 := registrar_codigo data2 hc2 rec2 hr2
    rw [h1, h2, hnorm]

def c9data : LoteInput :=
  ⟨some 1, some "  l-001  ", some "cafe", some "2024-03-01", some 1, some 10,
   some 5, none, none, some ""⟩

def c9rec : LoteProcesado :=
  ⟨1, "L-001", "cafe", "2024-03-01", 1, 10, 5, none, none, "", false, 0⟩

theorem C9_witness :
    c9data.codigo_lote = some "  l-001  " ∧
    registrar_lote c9data = (201, some c9rec) ∧
    c9rec.codigo_lote = pyUpper (pyStrip "  l-001  ") :=
  ⟨rfl, by decide,
   (C9_codigo_normalized c9rec c9data false "  l-001  " rfl).1 c9rec (by decide)⟩

theorem registrar_ok {data : LoteInput} {rec : LoteProcesado}
    (h : registrar_lote data = (201, some rec)) :
    LoteProcesadoSerializer.is_valid none data false = true ∧
    rec = (LoteProcesadoSerializer.save_instance none data).save_derive := by
  unfold registrar_lote at h
  split_ifs at h with hv
  · exact ⟨hv, (Option.some.inj ((Prod.mk.injEq _ _ _ _).mp h).2).symm⟩
  · exact absurd ((Prod.mk.injEq _ _ _ _).mp h).1 (by norm_num)

theorem actualizar_ok {stored st : LoteProcesado} {data : LoteInput} {part : Bool}
    (h : actualizar_lote stored data part = (200, st)) :
    LoteProcesadoSerializer.is_valid (some stored) data part = true ∧
    st = (LoteProcesadoSerializer.save_instance (some stored) data).save_derive := by
  unfold actualizar_lote at h
  split_ifs at h with hv
  · exact ⟨hv, (((Prod.mk.injEq _ _ _ _).mp h).2).symm⟩
  · exact absurd ((Prod.mk.injEq _ _ _ _).mp h).1 (by norm_num)

/-- **C4** — With all four percentages present in the effective data (absent
fields taken from the stored instance) and the field-level validators
passing, the serializer rejects exactly when the sum exceeds 100, and a
rejected update leaves the stored record untouched. -/
theorem C4_validation_iff (stored : LoteProcesado) (data : LoteInput) (part : Bool)
    (h i b d : Rat)
    (heff : effectiveFields (some stored) data = (some h, some i, some b, some d))
    (hfv : fieldValid data part = true) :
    (LoteProcesadoSerializer.is_valid (some stored) data part = false
        ↔ h + i + b + d > 100) ∧
    (h + i + b + d > 100 → actualizar_lote stored data part = (400, stored)) := by
  have hval : LoteProcesadoSerializer.validate (some stored) data
      = decide (¬(h + i + b + d > 100)) := by
    unfold LoteProcesadoSerializer.validate
    rw [heff]
  have hiv : LoteProcesadoSerializer.is_valid (some stored) data part
      = decide (¬(h + i + b + d > 100)) := by
    unfold LoteProcesadoSerializer.is_valid
    rw [hfv, hval, Bool.true_and]
  constructor
  · rw [hiv]
    by_cases hp : h + i + b + d > 100
    · simp [hp]
    · simp [hp]
  · intro hp
    unfold actualizar_lote
    rw [hiv]
    simp [hp]

def c4stored : LoteProcesado :=
  ⟨1, "L-004", "cafe", "2024-03-02", 1, 10, 5, none, none, "", false, 0⟩

def c4data : LoteInput :=
  ⟨some 1, some "L-004", some "cafe", some "2024-03-02", some 1, some 40,
   some 40, some (some 15), some (some 15), some ""⟩

theorem C4_witness :
    effectiveFields (some c4stored) c4data = (some 40, some 40, some 15, some 15) ∧
    fieldValid c4data false = true ∧
    ((40 : Rat) + 40 + 15 + 15 > 100) ∧
    (LoteProcesadoSerializer.is_valid (some c4stored) c4data false = false
        ↔ (40 : Rat) + 40 + 15 + 15 > 100) ∧
    actualizar_lote c4stored c4data false = (400, c4stored) :=
  ⟨by decide, by decide, by norm_num,
   (C4_validation_iff c4stored c4data false 40 40 15 15 (by decide) (by decide)).1,
   (C4_validation_iff c4stored c4data false 40 40 15 15 (by decide) (by decide)).2
     (by norm_num)⟩

def c2data : LoteInput :=
  ⟨some 1, some "L-002", some "cafe", some "2024-02-01", some 1, some 10,
   some 5, some (some 90), none, some ""⟩

def c2rec : LoteProcesado :=
  ⟨1, "L-002", "cafe", "2024-02-01", 1, 10, 5, some 90, some 0, "", false, 0⟩

/-- **C2** (counterexample) — The record created from humidity 10,
impurities 5, good% 90 with defective% absent passes validation, the save
derivation floors defective% at 0, and the stored record has all four
percentages present with sum 105 > 100: the invariant does not hold for all
reachable records. -/
theorem C2_counterexample :
    registrar_lote c2data = (201, some c2rec) ∧
    c2rec.grano_bueno = some 90 ∧ c2rec.grano_defectuoso = some 0 ∧
    c2rec.humedad + c2rec.impurezas + 90 + 0 > 100 :=
  ⟨by with_unfolding_all decide, rfl, rfl, by norm_num [c2rec]⟩

theorem effective_create {data : LoteInput} {h i b d : Rat}
    (hh : data.humedad = some h) (hi : data.impurezas = some i)
    (hb : data.grano_bueno = some (some b)) (hd : data.grano_defectuoso = some (some d)) :
    effectiveFields none data = (some h, some i, some b, some d) := by
  unfold effectiveFields
  rw [hh, hi, hb, hd]

theorem is_valid_validate {inst : Option LoteProcesado} {data : LoteInput} {part : Bool}
    (hv : LoteProcesadoSerializer.is_valid inst data part = true) :
    LoteProcesadoSerializer.validate inst data = true := by
  unfold LoteProcesadoSerializer.is_valid at hv
  simp only [Bool.and_eq_true] at hv
  exact hv.2

theorem validate_sum_le {inst : Option LoteProcesado} {data : LoteInput} {h i b d : Rat}
    (heff : effectiveFields inst data = (some h, some i, some b, some d))
    (hval : LoteProcesadoSerializer.validate inst data = true) :
    h + i + b + d ≤ 100 := by
  unfold LoteProcesadoSerializer.validate at hval
  rw [heff] at hval
  simp at hval
  linarith

theorem derive_sum_le {l : LoteProcesado} {b : Rat} (hb : l.grano_bueno = some b)
    (hd : l.grano_defectuoso = none) (hle : l.humedad + l.impurezas + b ≤ 100) :
    l.save_derive.humedad + l.save_derive.impurezas + l.save_derive.grano_bueno.getD 0
      + l.save_derive.grano_defectuoso.getD 0 ≤ 100 := by
  rw [save_derive_of_bueno hb hd]
  simp [hb]
  rw [max_eq_right (by linarith)]
  linarith

theorem derive_sum_le' {l : LoteProcesado} {d : Rat} (hd : l.grano_defectuoso = some d)
    (hb : l.grano_bueno = none) (hle : l.humedad + l.impurezas + d ≤ 100) :
    l.save_derive.humedad + l.save_derive.impurezas + l.save_derive.grano_bueno.getD 0
      + l.save_derive.grano_defectuoso.getD 0 ≤ 100 := by
  rw [save_derive_of_defectuoso hd hb]
  simp [hd]
  rw [max_eq_right (by linarith)]
  linarith

theorem nochange_sum_le {l : LoteProcesado} {h i b d : Rat} (hh : l.humedad = h)
    (hi : l.impurezas = i) (hb : l.grano_bueno = some b) (hd : l.grano_defectuoso = some d)
    (hle : h + i + b + d ≤ 100) :
    l.save_derive.humedad + l.save_derive.impurezas + l.save_derive.grano_bueno.getD 0
      + l.save_derive.grano_defectuoso.getD 0 ≤ 100 := by
  rw [save_derive_both_some (by simp [hb]) (by simp [hd]), hh, hi, hb, hd]
  simpa using hle

/-- **C2** (amended) — Records reached through create/update satisfy
humidity + impurities + good% + defective% ≤ 100 whenever all four values
were supplied by the client (create), whenever all four are present in the
effective update data, and whenever a missing percentage is derived without
triggering the 0-floor (humidity + impurities + known ≤ 100); only a floored
derivation can exceed 100.  The derivation clause is stated on the instance
being saved, so it covers both derivation branches (missing defective% as
well as missing good%), explicit-null payloads, and values inherited from
the stored row on update, for the create path and the update path alike. -/
theorem C2_amended_invariant (data : LoteInput) (stored rec st : LoteProcesado)
    (part : Bool) :
    ((∃ h i b d, data.humedad = some h ∧ data.impurezas = some i ∧
        data.grano_bueno = some (some b) ∧ data.grano_defectuoso = some (some d)) →
      registrar_lote data = (201, some rec) →
      rec.humedad + rec.impurezas + rec.grano_bueno.getD 0
          + rec.grano_defectuoso.getD 0 ≤ 100) ∧
    (∀ b : Rat, data.grano_bueno = some (some b) → data.grano_defectuoso = none →
      data.humedad.getD 0 + data.impurezas.getD 0 + b ≤ 100 →
      registrar_lote data = (201, some rec) →
      rec.humedad + rec.impurezas + rec.grano_bueno.getD 0
          + rec.grano_defectuoso.getD 0 ≤ 100) ∧
    (∀ h i b d : Rat, effectiveFields (some stored) data = (some h, some i, some b, some d) →
      actualizar_lote stored data part = (200, st) →
      st.humedad + st.impurezas + st.grano_bueno.getD 0
          + st.grano_defectuoso.getD 0 ≤ 100) ∧
    (∀ b : Rat,
      (LoteProcesadoSerializer.save_instance none data).grano_bueno = some b →
      (LoteProcesadoSerializer.save_instance none data).grano_defectuoso = none →
      (LoteProcesadoSerializer.save_instance none data).humedad
          + (LoteProcesadoSerializer.save_instance none data).impurezas + b ≤ 100 →
      registrar_lote data = (201, some rec) →
      rec.humedad + rec.impurezas + rec.grano_bueno.getD 0
          + rec.grano_defectuoso.getD 0 ≤ 100) ∧
    (∀ d : Rat,
      (LoteProcesadoSerializer.save_instance none data).grano_defectuoso = some d →
      (LoteProcesadoSerializer.save_instance none data).grano_bueno = none →
      (LoteProcesadoSerializer.save_instance none data).humedad
          + (LoteProcesadoSerializer.save_instance none data).impurezas + d ≤ 100 →
      registrar_lote data = (201, some rec) →
      rec.humedad + rec.impurezas + rec.grano_bueno.getD 0
          + rec.grano_defectuoso.getD 0 ≤ 100) ∧
    (∀ b : Rat,
      (LoteProcesadoSerializer.save_instance (some stored) data).grano_bueno = some b →
      (LoteProcesadoSerializer.save_instance (some stored) data).grano_defectuoso = none →
      (LoteProcesadoSerializer.save_instance (some stored) data).humedad
          + (LoteProcesadoSerializer.save_instance (some stored) data).impurezas + b ≤ 100 →
      actualizar_lote stored data part = (200, st) →
      st.humedad + st.impurezas + st.grano_bueno.getD 0
          + st.grano_defectuoso.getD 0 ≤ 100) ∧
    (∀ d : Rat,
      (LoteProcesadoSerializer.save_instance (some stored) data).grano_defectuoso = some d →
      (LoteProcesadoSerializer.save_instance (some stored) data).grano_bueno = none →
      (LoteProcesadoSerializer.save_instance (some stored) data).humedad
          + (LoteProcesadoSerializer.save_instance (some stored) data).impurezas + d ≤ 100 →
      actualizar_lote stored data part = (200, st) →
      st.humedad + st.impurezas + st.grano_bueno.getD 0
          + st.grano_defectuoso.getD 0 ≤ 100) := by
  refine ⟨?_, ?_, ?_, ?_, ?_, ?_, ?_⟩
  · rintro ⟨h, i, b, d, hh, hi, hb, hd⟩ hreg
    obtain ⟨hv, hrec⟩ := registrar_ok hreg
    have hsum := validate_sum_le (effective_create hh hi hb hd) (is_valid_validate hv)
    rw [hrec]
    exact nochange_sum_le (by simp [LoteProcesadoSerializer.save_instance, hh])
      (by simp [LoteProcesadoSerializer.save_instance, hi])
      (by simp [LoteProcesadoSerializer.save_instance, hb])
      (by simp [LoteProcesadoSerializer.save_instance, hd]) hsum
  · intro b hb hd hle hreg
    obtain ⟨hv, hrec⟩ := registrar_ok hreg
    have hih : (LoteProcesadoSerializer.save_instance none data).humedad
        = data.humedad.getD 0 := by
      simp [LoteProcesadoSerializer.save_instance]
    have hii : (LoteProcesadoSerializer.save_instance none data).impurezas
        = data.impurezas.getD 0 := by
      simp [LoteProcesadoSerializer.save_instance]
    have hinstb : (LoteProcesadoSerializer.save_instance none data).grano_bueno
        = some b := by
      simp [LoteProcesadoSerializer.save_instance, hb]
    have hinstd : (LoteProcesadoSerializer.save_instance none data).grano_defectuoso
        = none := by
      simp [LoteProcesadoSerializer.save_instance, hd]
    rw [hrec]
    refine derive_sum_le hinstb hinstd ?_
    rw [hih, hii]
    exact hle
  · intro h i b d heff hupd
    obtain ⟨hv, hst⟩ := actualizar_ok hupd
    have hsum := validate_sum_le heff (is_valid_validate hv)
    have heff2 := heff
    unfold effectiveFields at heff2
    rw [Prod.mk.injEq, Prod.mk.injEq, Prod.mk.injEq] at heff2
    obtain ⟨e1, e2, e3, e4⟩ := heff2
    have hih : (LoteProcesadoSerializer.save_instance (some stored) data).humedad = h := by
      rcases hcase : data.humedad with _ | v <;> rw [hcase] at e1 <;>
        simp_all [LoteProcesadoSerializer.save_instance, hcase]
    have hii : (LoteProcesadoSerializer.save_instance (some stored) data).impurezas = i := by
      rcases hcase : data.impurezas with _ | v <;> rw [hcase] at e2 <;>
        simp_all [LoteProcesadoSerializer.save_instance, hcase]
    have hib : (LoteProcesadoSerializer.save_instance (some stored) data).grano_bueno
        = some b := by
      rcases hcase : data.grano_bueno with _ | v <;> rw [hcase] at e3 <;>
        simp_all [LoteProcesadoSerializer.save_instance, hcase]
    have hid : (LoteProcesadoSerializer.save_instance (some stored) data).grano_defectuoso
        = some d := by
      rcases hcase : data.grano_defectuoso with _ | v <;> rw [hcase] at e4 <;>
        simp_all [LoteProcesadoSerializer.save_instance, hcase]
    rw [hst]
    exact nochange_sum_le hih hii hib hid hsum
  · intro b hinstb hinstd hle hreg
    obtain ⟨hv, hrec⟩ := registrar_ok hreg
    rw [hrec]
    exact derive_sum_le hinstb hinstd hle
  · intro d hinstd hinstb hle hreg
    obtain ⟨hv, hrec⟩ := registrar_ok hreg
    rw [hrec]
    exact derive_sum_le' hinstd hinstb hle
  · intro b hinstb hinstd hle hupd
    obtain ⟨hv, hst⟩ := actualizar_ok hupd
    rw [hst]
    exact derive_sum_le hinstb hinstd hle
  · intro d hinstd hinstb hle hupd
    obtain ⟨hv, hst⟩ := actualizar_ok hupd
    rw [hst]
    exact derive_sum_le' hinstd hinstb hle

def c2okdata : LoteInput :=
  ⟨some 1, some "L-020", some "cafe", some "2024-02-02", some 1, some 10,
   some 5, some (some 70), some (some 15), some ""⟩

def c2okrec : LoteProcesado :=
  ⟨1, "L-020", "cafe", "2024-02-02", 1, 10, 5, some 70, some 15, "", false, 0⟩

def c2derdata : LoteInput :=
  ⟨some 1, some "L-021", some "cafe", some "2024-02-03", some 1, some 10,
   some 5, some (some 70), none, some ""⟩

def c2derrec : LoteProcesado :=
  ⟨1, "L-021", "cafe", "2024-02-03", 1, 10, 5, some 70, some 15, "", false, 0⟩

def c2derdata2 : LoteInput :=
  ⟨some 1, some "L-022", some "cafe", some "2024-02-04", some 1, some 10,
   some 5, some none, some (some 70), some ""⟩

def c2derrec2 : LoteProcesado :=
  ⟨1, "L-022", "cafe", "2024-02-04", 1, 10, 5, some 15, some 70, "", false, 0⟩

theorem C2_amended_witness :
    (registrar_lote c2okdata = (201, some c2okrec) ∧
      c2okrec.humedad + c2okrec.impurezas + c2okrec.grano_bueno.getD 0
          + c2okrec.grano_defectuoso.getD 0 ≤ 100) ∧
    (registrar_lote c2derdata = (201, some c2derrec) ∧
      c2derrec.humedad + c2derrec.impurezas + c2derrec.grano_bueno.getD 0
          + c2derrec.grano_defectuoso.getD 0 ≤ 100) ∧
    (registrar_lote c2derdata2 = (201, some c2derrec2) ∧
      c2derrec2.humedad + c2derrec2.impurezas + c2derrec2.grano_bueno.getD 0
          + c2derrec2.grano_defectuoso.getD 0 ≤ 100) :=
  ⟨⟨by with_unfolding_all decide,
    (C2_amended_invariant c2okdata c4stored c2okrec c4stored false).1
      ⟨10, 5, 70, 15, rfl, rfl, rfl, rfl⟩ (by with_unfolding_all decide)⟩,
   ⟨by with_unfolding_all decide,
    (C2_amended_invariant c2derdata c4stored c2derrec c4stored false).2.2.2.1 70
      (by with_unfolding_all decide) (by with_unfolding_all decide)
      (by with_unfolding_all decide) (by with_unfolding_all decide)⟩,
   ⟨by with_unfolding_all decide,
    (C2_amended_invariant c2derdata2 c4stored c2derrec2 c4stored false).2.2.2.2.1 70
      (by with_unfolding_all decide) (by with_unfolding_all decide)
      (by with_unfolding_all decide) (by with_unfolding_all decide)⟩⟩

theorem encriptar_con_cedula_ok (pdf : List Nat) {ced : String} (hced : ced ≠ "")
    (ts iv : List Nat) :
    encriptar_con_cedula pdf ced ts iv =
      .ok (urlsafe_b64encode (fernetTokenAt (sha256 (utf8Encode ced)) ts iv pdf),
           urlsafe_b64encode (sha256 (utf8Encode ced))) := by
  unfold encriptar_con_cedula fernetEncrypt
  rw [if_neg hced]
  simp [urlsafe_b64decode_encode _ (sha256_valid _), sha256_length]

/-- **C5** — For every non-empty client identifier, key derivation returns
the url-safe base64 encoding of the SHA-256 digest of the identifier's UTF-8
encoding, and any two derivations from the same identifier yield identical
key bytes. -/
theorem C5_key_derivation (pdf ts iv : List Nat) (ced : String) (h : ced ≠ "") :
    (∃ tok, encriptar_con_cedula pdf ced ts iv
        = .ok (tok, urlsafe_b64encode (sha256 (utf8Encode ced)))) ∧
    (∀ (pdf2 ts2 iv2 tok1 key1 tok2 key2 : List Nat),
      encriptar_con_cedula pdf ced ts iv = .ok (tok1, key1) →
      encriptar_con_cedula pdf2 ced ts2 iv2 = .ok (tok2, key2) → key1 = key2) := by
  constructor
  · exact ⟨_, encriptar_con_cedula_ok pdf h ts iv⟩
  · intro pdf2 ts2 iv2 tok1 key1 tok2 key2 h1 h2
    rw [encriptar_con_cedula_ok pdf h ts iv] at h1
    rw [encriptar_con_cedula_ok pdf2 h ts2 iv2] at h2
    have e1 := (Prod.mk.injEq _ _ _ _).mp (Except.ok.inj h1)
    have e2 := (Prod.mk.injEq _ _ _ _).mp (Except.ok.inj h2)
    rw [← e1.2, ← e2.2]

def zts : List Nat := List.replicate 8 0

def ziv : List Nat := List.replicate 16 0

theorem C5_witness :
    ("CED123" ≠ "") ∧
    ((∃ tok, encriptar_con_cedula [1, 2, 3] "CED123" zts ziv
        = .ok (tok, urlsafe_b64encode (sha256 (utf8Encode "CED123")))) ∧
     (∀ (pdf2 ts2 iv2 tok1 key1 tok2 key2 : List Nat),
       encriptar_con_cedula [1, 2, 3] "CED123" zts ziv = .ok (tok1, key1) →
       encriptar_con_cedula pdf2 "CED123" ts2 iv2 = .ok (tok2, key2) → key1 = key2)) :=
  ⟨by decide, C5_key_derivation [1, 2, 3] zts ziv "CED123" (by decide)⟩

theorem strFalsy_eq_false {o : Option String} (h : strFalsy o = false) :
    o.getD "" ≠ "" := by
  cases o with
  | none => simp [strFalsy] at h
  | some s =>
      simp only [strFalsy, beq_eq_false_iff_ne, ne_eq] at h
      simpa using h

/-- **C7** — When the email transport raises, the delivery step returns the
error (re-raises), logs the failure with the lot code, attempts no further
send, and leaves both the stored record and the in-memory delivered flag
unchanged. -/
theorem C7_transport_failure (stored lote : LoteProcesado) (cliente : Cliente)
    (hemail : strFalsy cliente.email = false) :
    (enviar_informe_por_correo stored lote cliente false).ok = false ∧
    (enviar_informe_por_correo stored lote cliente false).stored = stored ∧
    (enviar_informe_por_correo stored lote cliente false).lote.enviado = lote.enviado ∧
    (enviar_informe_por_correo stored lote cliente false).sent = false ∧
    ("Error enviando informe lote " ++ lote.codigo_lote)
      ∈ (enviar_informe_por_correo stored lote cliente false).logs := by
  simp [enviar_informe_por_correo, hemail]

def c7cliente : Cliente := ⟨"user1", "User One", some "user1@mail.com", some "CED123"⟩

theorem C7_witness :
    strFalsy c7cliente.email = false ∧
    (enviar_informe_por_correo c4stored c4stored c7cliente false).ok = false ∧
    (enviar_informe_por_correo c4stored c4stored c7cliente false).stored = c4stored ∧
    ("Error enviando informe lote " ++ c4stored.codigo_lote)
      ∈ (enviar_informe_por_correo c4stored c4stored c7cliente false).logs := by
  have h := C7_transport_failure c4stored c4stored c7cliente (by decide)
  exact ⟨by decide, h.1, h.2.1, h.2.2.2.2⟩

theorem applyUpdateFields_enviado (stored mem : LoteProcesado) :
    applyUpdateFields stored mem (some ["enviado"]) = { stored with enviado := mem.enviado } := by
  with_unfolding_all rfl

/-- **C8** — When the transport send succeeds, the delivery step sets the
batch's delivered flag to true and persists only that field (every other
stored field keeps its prior value), and the dispatch view completes with
status 200 and the same single-field store change. -/
theorem C8_success_persists_only_enviado (stored lote : LoteProcesado)
    (cliente : Cliente) (hemail : strFalsy cliente.email = false) :
    ((enviar_informe_por_correo stored lote cliente true).stored
        = { stored with enviado := true } ∧
      (enviar_informe_por_correo stored lote cliente true).sent = true) ∧
    (∀ ts iv : List Nat, strFalsy cliente.cedula = false →
      (enviar_informe_pdf stored cliente ts iv true).stored
          = { stored with enviado := true } ∧
      (enviar_informe_pdf stored cliente ts iv true).status = 200) := by
  have hcorreo : ∀ st lt : LoteProcesado,
      enviar_informe_por_correo st lt cliente true =
        ⟨true, "", ({ lt with enviado := true } : LoteProcesado).save_derive,
         { st with enviado := true }, true, []⟩ := by
    intro st lt
    simp only [enviar_informe_por_correo, LoteProcesado.save]
    rw [hemail]
    simp [applyUpdateFields_enviado, save_derive_enviado]
  constructor
  · rw [hcorreo stored lote]
    exact ⟨rfl, rfl⟩
  · intro ts iv hced
    have hc := strFalsy_eq_false hced
    simp only [enviar_informe_pdf]
    rw [hced]
    simp only [Bool.false_eq_true, if_false]
    rw [encriptar_con_cedula_ok (generar_pdf_lote stored cliente) hc ts iv]
    simp only [hcorreo]
    simp only [LoteProcesado.save, applyUpdateFields_enviado, save_derive_enviado]
    exact ⟨rfl, rfl⟩

theorem C8_witness :
    strFalsy c7cliente.email = false ∧ strFalsy c7cliente.cedula = false ∧
    (enviar_informe_por_correo c4stored c4stored c7cliente true).stored
        = { c4stored with enviado := true } ∧
    (enviar_informe_pdf c4stored c7cliente zts ziv true).status = 200 := by
  have h := C8_success_persists_only_enviado c4stored c4stored c7cliente (by decide)
  exact ⟨by decide, by decide, h.1.1, (h.2 zts ziv (by decide)).2⟩

def c3lote : LoteProcesado :=
  ⟨1, "L-003", "cafe", "2024-01-03", 1, 10, 5, some 80, some 5, "", false, 0⟩

def c3cliente : Cliente := ⟨"user1", "User One", none, some "CED123"⟩

/-- **C3** (counterexample) — A client with an identifier but no email
address triggers the claim's premise, yet the endpoint renders the document
and answers with the server-error status 500, not a client error. -/
theorem C3_counterexample :
    c3cliente.email = none ∧ c3cliente.cedula = some "CED123" ∧
    enviar_informe_pdf c3lote c3cliente zts ziv true
      = ⟨500, c3lote, true, false,
         ["🚨 Error al generar/enviar informe: El cliente no tiene dirección de correo registrada."]⟩ := by
  refine ⟨rfl, rfl, ?_⟩
  with_unfolding_all rfl

/-- **C3** (amended) — When the client's identifier (cédula) is missing or
empty the endpoint answers 400 before the pipeline: nothing is rendered,
nothing is sent, the store is untouched.  When the identifier is present but
the email address is missing, the document is rendered first, no email is
sent and the store (hence the delivered flag) is unchanged, but the response
is the server error 500 rather than a client error. -/
theorem C3_dispatch_guard (stored : LoteProcesado) (cliente : Cliente)
    (ts iv : List Nat) (sendOk : Bool) :
    (strFalsy cliente.cedula = true →
      enviar_informe_pdf stored cliente ts iv sendOk
        = ⟨400, stored, false, false, ["⚠️ Cliente sin cédula."]⟩) ∧
    (strFalsy cliente.cedula = false → strFalsy cliente.email = true →
      (enviar_informe_pdf stored cliente ts iv sendOk).status = 500 ∧
      (enviar_informe_pdf stored cliente ts iv sendOk).rendered = true ∧
      (enviar_informe_pdf stored cliente ts iv sendOk).sent = false ∧
      (enviar_informe_pdf stored cliente ts iv sendOk).stored = stored) := by
  constructor
  · intro h
    simp [enviar_informe_pdf, h]
  · intro hced hem
    have hc := strFalsy_eq_false hced
    simp only [enviar_informe_pdf]
    rw [hced]
    simp only [Bool.false_eq_true, if_false]
    rw [encriptar_con_cedula_ok (generar_pdf_lote stored cliente) hc ts iv]
    simp [enviar_informe_por_correo, hem]

def c3cliente2 : Cliente := ⟨"user2", "User Two", some "user2@mail.com", none⟩

theorem C3_witness :
    strFalsy c3cliente2.cedula = true ∧
    enviar_informe_pdf c3lote c3cliente2 zts ziv true
      = ⟨400, c3lote, false, false, ["⚠️ Cliente sin cédula."]⟩ :=
  ⟨by decide, (C3_dispatch_guard c3lote c3cliente2 zts ziv true).1 (by decide)⟩

theorem fernet_roundtrip_cedula {doc ts iv : List Nat} {ced : String} (hced : ced ≠ "")
    (hdoc : ValidBytes doc) (hts : ts.length = 8) (htsv : ValidBytes ts)
    (hiv : iv.length = 16) (hivv : ValidBytes iv) :
    ∀ tok key, encriptar_con_cedula doc ced ts iv = .ok (tok, key) →
      fernetDecrypt key tok = some doc := by
  intro tok key h
  rw [encriptar_con_cedula_ok doc hced ts iv] at h
  obtain ⟨htok, hkey⟩ := (Prod.mk.injEq _ _ _ _).mp (Except.ok.inj h)
  rw [← htok, ← hkey]
  exact fernetDecrypt_fernetEncrypt (urlsafe_b64decode_encode _ (sha256_valid _))
    (sha256_length _) (sha256_valid _) hts htsv hiv hivv hdoc

/-- The fail-closed property exactly as claimed: same-key decryption returns
the document, and decryption under a key derived from any other identifier
is rejected. -/
def ClaimC6 : Prop :=
  ∀ (doc ts iv : List Nat) (id1 id2 : String),
    ValidBytes doc → ts.length = 8 → ValidBytes ts → iv.length = 16 → ValidBytes iv →
    id1 ≠ "" → id2 ≠ "" → id2 ≠ id1 →
    ∀ tok key1, encriptar_con_cedula doc id1 ts iv = .ok (tok, key1) →
      fernetDecrypt key1 tok = some doc ∧
      fernetDecrypt (urlsafe_b64encode (sha256 (utf8Encode id2))) tok = none

theorem repl_ne_empty (n : Nat) : String.mk (List.replicate (n + 1) 'a') ≠ "" := by
  intro h
  have hl := congrArg String.length h
  simp [String.length] at hl

/-- **C6** (counterexample) — The claim cannot hold as stated: infinitely
many identifiers map to finitely many 32-byte digests, so two distinct
identifiers deriving the same key exist, and for such a pair decryption
under the "different identifier" key succeeds (it is the same key). -/
theorem C6_counterexample : ¬ ClaimC6 := by
  intro hclaim
  obtain ⟨n, m, hne, heq⟩ := Finite.exists_ne_map_eq_of_infinite
    (fun n : Nat => (fun j : Fin 32 =>
      (⟨(sha256 (utf8Encode (String.mk (List.replicate (n + 1) 'a')))).getD j 0,
        getD_lt_of_valid (sha256_valid _) j⟩ : Fin 256)))
  set id1 := String.mk (List.replicate (n + 1) 'a') with hid1
  set id2 := String.mk (List.replicate (m + 1) 'a') with hid2
  have hidne : id2 ≠ id1 := by
    intro h
    apply hne
    have hl := congrArg String.length h
    simp [String.length] at hl
    omega
  have hdig : sha256 (utf8Encode id1) = sha256 (utf8Encode id2) := by
    apply List.ext_getElem
    · rw [sha256_length, sha256_length]
    · intro j h1 h2
      have hj : j < 32 := by rw [sha256_length] at h1; exact h1
      have hfin := congrFun heq ⟨j, hj⟩
      have hv : (sha256 (utf8Encode id1)).getD j 0 = (sha256 (utf8Encode id2)).getD j 0 := by
        simpa using congrArg Fin.val hfin
      rw [List.getD_eq_getElem?_getD, List.getD_eq_getElem?_getD,
        List.getElem?_eq_getElem h1, List.getElem?_eq_getElem h2] at hv
      simpa using hv
  have happ := hclaim [] zts ziv id1 id2 (by decide) (by decide) (by decide)
    (by decide) (by decide) (repl_ne_empty n) (repl_ne_empty m) hidne _ _
    (encriptar_con_cedula_ok [] (repl_ne_empty n) zts ziv)
  have h1 := happ.1
  have h2 := happ.2
  rw [← hdig] at h2
  rw [h1] at h2
  exact absurd h2 (by simp)

/-- **C6** (amended) — Decrypting the ciphertext produced under the same
derived key returns exactly the original bytes, and decryption fails closed
(is rejected) whenever the HMAC-SHA256 tag does not verify under the
decrypting key.  Rejection for a key derived from a *different identifier*
holds only up to hash collisions: distinct identifiers with identical
derived keys exist (see the counterexample), and for those decryption
succeeds. -/
theorem C6_roundtrip_and_fail_closed :
    (∀ (doc ts iv : List Nat) (ced : String), ced ≠ "" → ValidBytes doc →
      ts.length = 8 → ValidBytes ts → iv.length = 16 → ValidBytes iv →
      ∀ tok key, encriptar_con_cedula doc ced ts iv = .ok (tok, key) →
        fernetDecrypt key tok = some doc) ∧
    (∀ (keyB64 tokText k32 tok : List Nat),
      urlsafe_b64decode keyB64 = some k32 → k32.length = 32 →
      urlsafe_b64decode tokText = some tok →
      hmacSha256 (List.take 16 k32) (tok.take (tok.length - 32))
        ≠ tok.drop (tok.length - 32) →
      fernetDecrypt keyB64 tokText = none) := by
  constructor
  · intro doc ts iv ced hced hdoc hts htsv hiv hivv
    exact fernet_roundtrip_cedula hced hdoc hts htsv hiv hivv
  · intro keyB64 tokText k32 tok hk hk32 htok htag
    simp only [fernetDecrypt, hk, htok]
    rw [if_pos hk32]
    by_cases hlen : 57 ≤ tok.length ∧ tok.headD 0 = 128
    · rw [if_pos hlen, if_neg htag]
    · rw [if_neg hlen]

theorem C6_witness :
    ((("CED123" : String) ≠ "") ∧ ValidBytes [1, 2] ∧ zts.length = 8 ∧
      ziv.length = 16 ∧
      fernetDecrypt (urlsafe_b64encode (sha256 (utf8Encode "CED123")))
          (urlsafe_b64encode (fernetTokenAt (sha256 (utf8Encode "CED123")) zts ziv [1, 2]))
        = some [1, 2]) ∧
    fernetDecrypt (urlsafe_b64encode (List.replicate 32 0)) (urlsafe_b64encode [128])
      = none := by
  constructor
  · refine ⟨by decide, by decide, by decide, by decide, ?_⟩
    exact (C6_roundtrip_and_fail_closed).1 [1, 2] zts ziv "CED123" (by decide)
      (by decide) (by decide) (by decide) (by decide) (by decide) _ _
      (encriptar_con_cedula_ok [1, 2] (by decide) zts ziv)
  · refine (C6_roundtrip_and_fail_closed).2 (urlsafe_b64encode (List.replicate 32 0))
      (urlsafe_b64encode [128]) (List.replicate 32 0) [128]
      (urlsafe_b64decode_encode _ (by decide)) (by decide)
      (urlsafe_b64decode_encode _ (by decide)) ?_
    intro hcon
    have h2 := congrArg List.length hcon
    rw [hmacSha256_length] at h2
    simp at h2

end CrudClase
